import Mathlib

/-!
# Risk-assessment engine: shallow embedding and verification

This file embeds the scoring-and-advice engine of the risk-assessment
repository (source: `src/components/risk-assessment-form.tsx` and
`src/components/risk-result.tsx`) and proves the specification claims
about it.

Modelling conventions:
* JS strings are modelled as `List Char` (unicode scalar values).
* JS numbers are integers here; the inputs are integers by the input
  contract, and every fractional intermediate value in the source
  (`savings / (monthlyIncome * familyCount)`, `ratio`, `x / 2`, `x / 4`,
  `monthlyIncome * 0.2`) is modelled by exact rational arithmetic,
  rewritten into integer comparisons / explicit round-half-up or
  ceiling divisions.  IEEE-754 rounding noise is not modelled.
* `String.prototype.toLowerCase()` is modelled as the character-wise
  basic-latin lowering `Char.toLower` (the child/spouse markers the
  code compares against are CJK characters, untouched by both).
-/

namespace RiskAssessment

set_option maxRecDepth 40000

/-- JS strings, modelled as their list of unicode scalar values. -/
abbrev Str := List Char

/-- Model of `s.toLowerCase()` (character-wise basic-latin lowering). -/
def jsLower (s : Str) : Str := s.map Char.toLower

/-- `needle` occurs at the start of `hay` (helper for `containsSub`). -/
def isPrefixChars : Str → Str → Bool
  | [], _ => true
  | _ :: _, [] => false
  | a :: as, b :: bs => a == b && isPrefixChars as bs

/-- Model of JS `hay.includes(needle)`: substring containment. -/
def containsSub : Str → Str → Bool
  | [], needle => needle.isEmpty
  | c :: t, needle => isPrefixChars needle (c :: t) || containsSub t needle

/-- The maximal runs of ASCII digits of a string, left to right: the model
of `s.match(/\d+/g)` (a JS `\d` matches exactly the ASCII digits). -/
def digitRuns : Str → List Str
  | [] => []
  | c :: cs =>
    if c.isDigit then
      (c :: cs.takeWhile Char.isDigit) :: digitRuns (cs.dropWhile Char.isDigit)
    else
      digitRuns cs
termination_by l => l.length
decreasing_by
  · have h := (List.dropWhile_sublist (l := cs) Char.isDigit).length_le
    simp only [List.length_cons]
    omega
  · simp

/-- Decimal value of a digit string, the model of `parseInt(s, 10)` on a
string of ASCII digits.  (On very long digit runs `parseInt` returns an
IEEE double approximation; every use in the source is capped at 3 by
`Math.min`, so the difference is unobservable.) -/
def parseDecDigits (l : Str) : Nat :=
  l.foldl (fun n c => n * 10 + (c.toNat - 48)) 0

/-- The applicant profile, the validated form value object
(`formSchema`, `risk-assessment-form.tsx` lines 17-36). -/
structure ApplicantProfile where
  familyStructureText : Str
  familyCount : Nat
  age : Nat
  savings : Nat
  monthlyIncome : Nat
  hasChildrenFlag : Bool

/-- The input contract enforced by the validation layer (spec section 6):
`familyCount ≥ 1`, `monthlyIncome ≥ 1`, `age` either 0 (unspecified) or
in [18,100]; `savings ≥ 0` holds by the `Nat` type. -/
def validInput (p : ApplicantProfile) : Prop :=
  1 ≤ p.familyCount ∧ 1 ≤ p.monthlyIncome ∧
    (p.age = 0 ∨ (18 ≤ p.age ∧ p.age ≤ 100))

instance (p : ApplicantProfile) : Decidable (validInput p) := by
  unfold validInput; infer_instance

/-- `const familyStructure = form.getValues().familyStructure.toLowerCase()`
(line 96). -/
def lowerText (p : ApplicantProfile) : Str := jsLower p.familyStructureText

/-- The three child markers searched for in the family-structure text. -/
def childMarkers : List Str := ["子".toList, "こども".toList, "子供".toList]

/-- Lines 97-100: `hasChildren = form.getValues().hasChildren ||
familyStructure.includes('子') || familyStructure.includes('こども') ||
familyStructure.includes('子供')`. -/
def hasChildren (p : ApplicantProfile) : Bool :=
  p.hasChildrenFlag || containsSub (lowerText p) "子".toList ||
    containsSub (lowerText p) "こども".toList ||
    containsSub (lowerText p) "子供".toList

/-- Lines 112-114: the lowered text contains a spouse marker
(`妻`, `夫` or `配偶者`). -/
def spouseInText (s : Str) : Bool :=
  containsSub s "妻".toList || containsSub s "夫".toList ||
    containsSub s "配偶者".toList

/-- Lines 102-116: estimated number of children.  First maximal digit run
of the (lowered) family-structure text if any, otherwise
`max(1, familyCount - (spouse marker present ? 2 : 1))`; `0` when
`hasChildren` is false (the variable keeps its initialiser). -/
def childrenCount (p : ApplicantProfile) : Nat :=
  if hasChildren p then
    match digitRuns (lowerText p) with
    | r :: _ => parseDecDigits r
    | [] => max 1 (p.familyCount - (if spouseInText (lowerText p) then 2 else 1))
  else 0

/-- Line 119: `const userAge = form.getValues().age || 35` (0 is falsy). -/
def effectiveAge (p : ApplicantProfile) : Nat :=
  if p.age = 0 then 35 else p.age

/-- `Math.round (a / b)` for nonnegative `a / b`: round half up, i.e.
`⌊(a + b/2) / b⌋ = ⌊(2a + b) / (2b)⌋`. -/
def jround (a b : Nat) : Nat := (2 * a + b) / (2 * b)

/-- Lines 122-125: `baseScore = savings / (monthlyIncome * familyCount)`;
`scaledScore = Math.min(Math.round(baseScore * 100 / 3), 100)`, i.e. the
rounded value of `savings * 100 / (monthlyIncome * familyCount * 3)`. -/
def scaledScore0 (p : ApplicantProfile) : Nat :=
  min (jround (p.savings * 100) (p.monthlyIncome * p.familyCount * 3)) 100

/-- Line 128: `scaledScore = Math.max(40, scaledScore)`. -/
def scaledScore1 (p : ApplicantProfile) : Nat := max 40 (scaledScore0 p)

/-- Lines 131-147: age bonus by `userAge` bracket. -/
def ageBonus (p : ApplicantProfile) : Nat :=
  if effectiveAge p < 30 then 15
  else if effectiveAge p < 40 then 10
  else if effectiveAge p < 50 then 8
  else if effectiveAge p < 60 then 5
  else 3

/-- Lines 150-166: family adjustment (`-5 * min(3, childrenCount)` with
children, `5` for a multi-person childless household, `10` single). -/
def familyAdjustment (p : ApplicantProfile) : Int :=
  if hasChildren p then -5 * min 3 (childrenCount p : Int)
  else if p.familyCount > 1 then 5
  else 10

/-- Line 158: `minScoreWithChildren = 65 - (5 * Math.min(3, childrenCount))`. -/
def minScoreWithChildren (p : ApplicantProfile) : Nat :=
  65 - 5 * min 3 (childrenCount p)

/-- Lines 151-166: the value of `scaledScore` after the children re-floor
(`scaledScore = Math.max(minScoreWithChildren, scaledScore + familyAdjustment)`
when `hasChildren`; unchanged otherwise). -/
def scaledScore2 (p : ApplicantProfile) : Int :=
  if hasChildren p then
    max (minScoreWithChildren p : Int) ((scaledScore1 p : Int) + familyAdjustment p)
  else (scaledScore1 p : Int)

/-- Lines 169-182: income bonus by monthly income bracket. -/
def incomeBonus (p : ApplicantProfile) : Nat :=
  if p.monthlyIncome ≥ 500000 then 10
  else if p.monthlyIncome ≥ 300000 then 7
  else if p.monthlyIncome ≥ 200000 then 5
  else 3

/-- Line 185 / 227: `sixMonthsCost = monthlyIncome * familyCount * 6`. -/
def sixMonthsCost (p : ApplicantProfile) : Nat :=
  p.monthlyIncome * p.familyCount * 6

/-- Line 228: `threeMonthsCost = monthlyIncome * familyCount * 3`. -/
def threeMonthsCost (p : ApplicantProfile) : Nat :=
  p.monthlyIncome * p.familyCount * 3

/-- Lines 186-199: savings bonus.  `savings >= sixMonthsCost / 2` and
`savings >= sixMonthsCost / 4` are exact rational comparisons in JS
(dividing a double by 2 or 4 is exact), written here multiplied out. -/
def savingsBonus (p : ApplicantProfile) : Nat :=
  if p.savings ≥ sixMonthsCost p then 10
  else if 2 * p.savings ≥ sixMonthsCost p then 7
  else if 4 * p.savings ≥ sixMonthsCost p then 5
  else 2

/-- Line 202: `finalScore = scaledScore + ageBonus + familyAdjustment +
incomeBonus + savingsBonus` — the intermediate value before the
no-children floor and the final clamp.  Note `familyAdjustment` was
already folded into `scaledScore` by the children re-floor, and is added
again here. -/
def preFloorScore (p : ApplicantProfile) : Int :=
  scaledScore2 p + (ageBonus p : Int) + familyAdjustment p +
    (incomeBonus p : Int) + (savingsBonus p : Int)

/-- Lines 205-207: `if (!hasChildren) finalScore = Math.max(80, finalScore)`. -/
def flooredScore (p : ApplicantProfile) : Int :=
  if hasChildren p then preFloorScore p else max 80 (preFloorScore p)

/-- Lines 94-214, `calculateRiskScore`: the returned score,
`Math.round(Math.min(100, finalScore))` (the argument is already an
integer, so the final `Math.round` is the identity). -/
def calculateRiskScore (p : ApplicantProfile) : Int :=
  min 100 (flooredScore p)

/-- Lines 217-222, `getRiskStatus`. -/
def getRiskStatus (score : Int) : String :=
  if score ≤ 40 then "検討段階"
  else if score ≤ 70 then "準備OK"
  else "絶好のタイミング"

/-! ## Classification tiers (`generateAdvice`, lines 239-280) -/

/-- The income tier (`getIncomeLevel`, lines 240-244). -/
inductive IncomeLevel
  | low
  | medium
  | high
deriving DecidableEq

/-- The savings tier (`getSavingsLevel`, lines 249-254). -/
inductive SavingsLevel
  | low
  | medium
  | high
deriving DecidableEq

/-- The composite risk tier (`getRiskProfile`, lines 259-278). -/
inductive RiskProfile
  | highest
  | high
  | medium
  | low
deriving DecidableEq

/-- Lines 240-246. -/
def getIncomeLevel (income : Nat) : IncomeLevel :=
  if income < 250000 then .low
  else if income < 500000 then .medium
  else .high

/-- Lines 249-256: `ratio = savings / targetAmount`; `ratio < 0.5` and
`ratio < 1` are written multiplied out (`targetAmount > 0` under the
input contract; for `targetAmount = 0` JS yields `NaN`, every `<` is
false and the result is `high`, which the integer comparisons below
reproduce). -/
def getSavingsLevel (savings targetAmount : Nat) : SavingsLevel :=
  if 2 * savings < targetAmount then .low
  else if savings < targetAmount then .medium
  else .high

/-- Lines 259-278: the cascade of risk-profile rules, in source order. -/
def getRiskProfile (hasC : Bool) (sav : SavingsLevel) (inc : IncomeLevel) :
    RiskProfile :=
  if hasC = true ∧ sav = SavingsLevel.low ∧ inc = IncomeLevel.low then .highest
  else if hasC = true ∧ (sav ≠ SavingsLevel.high ∨ inc ≠ IncomeLevel.high) then .high
  else if hasC = false ∧ sav = SavingsLevel.low ∧ inc = IncomeLevel.low then .medium
  else if sav = SavingsLevel.high ∧ inc = IncomeLevel.high then .low
  else .medium

/-- `incomeLevel` as used by `generateAdvice` (line 246). -/
def incomeLevel (p : ApplicantProfile) : IncomeLevel :=
  getIncomeLevel p.monthlyIncome

/-- `savingsLevel` as used by `generateAdvice` (line 256). -/
def savingsLevel (p : ApplicantProfile) : SavingsLevel :=
  getSavingsLevel p.savings (threeMonthsCost p)

/-- `riskProfile` as used by `generateAdvice` (line 280). -/
def riskProfile (p : ApplicantProfile) : RiskProfile :=
  getRiskProfile (hasChildren p) (savingsLevel p) (incomeLevel p)

/-! ## Number rendering

`toLocaleString()` is modelled as decimal digits with `,` thousands
separators (the en-US/ja-JP grouping); plain interpolation of a number is
its decimal digit string. -/

/-- The decimal digit character of `n` (`n < 10` at every use). -/
def digitChar (n : Nat) : Char :=
  match n with
  | 0 => '0'
  | 1 => '1'
  | 2 => '2'
  | 3 => '3'
  | 4 => '4'
  | 5 => '5'
  | 6 => '6'
  | 7 => '7'
  | 8 => '8'
  | _ => '9'

/-- Decimal digit string of a natural number (JS number-to-string on a
nonnegative integer). -/
def natDigits (n : Nat) : Str :=
  if _h : n < 10 then [digitChar n]
  else natDigits (n / 10) ++ [digitChar (n % 10)]
termination_by n
decreasing_by exact Nat.div_lt_self (by omega) (by omega)

/-- Split a reversed digit string into groups of three, lowest first. -/
def chunk3Rev : Str → List Str
  | a :: b :: c :: d :: rest => [a, b, c] :: chunk3Rev (d :: rest)
  | l => [l]

/-- Join digit groups with `,` separators. -/
def joinComma : List Str → Str
  | [] => []
  | [x] => x
  | x :: y :: rest => x ++ ',' :: joinComma (y :: rest)

/-- Model of `n.toLocaleString()` for a natural number. -/
def localeNat (n : Nat) : Str :=
  joinComma ((chunk3Rev (natDigits n).reverse).map List.reverse).reverse

/-- Model of `(monthlyIncome * 0.2).toLocaleString()`: the exact rational
`monthlyIncome / 5`, which has at most one fractional digit (even
multiples of 0.2 print exactly under the default 3-fraction-digit
rounding of `toLocaleString`). -/
def localeFifth (n : Nat) : Str :=
  localeNat (n / 5) ++
    (match n % 5 with
     | 0 => []
     | 1 => ".2".toList
     | 2 => ".4".toList
     | 3 => ".6".toList
     | _ => ".8".toList)

/-! ## Advice text constants

The titles and bodies of the advice blocks, transcribed verbatim from the
template literals of `generateAdvice` (lines 283-584). -/

def ageTitle20 : Str := "20代のあなたへ".toList

def ageBody20 : Str := "あなたの若さは最大の武器です！未来は無限の可能性に満ちています。\n\n・20代は失敗してもリカバリーできる貴重な時期です。思い切ったチャレンジができるのは今です。\n・デジタルネイティブとしての感覚やトレンドへの敏感さは、ビジネスにおいて大きな強みになります。\n・今から経験を積むことで、30代、40代での飛躍的な成長につながります。\n・若い起業家は投資家からも注目されやすく、支援を受けやすい傾向があります。\n・エネルギーと柔軟性を活かして、新しい市場やニッチを開拓できるチャンスです。\n\nあなたの行動力と新鮮な視点は、既存の市場に革新をもたらす可能性を秘めています！".toList

def ageTitle30 : Str := "30代のあなたへ".toList

def ageBody30 : Str := "30代は経験と若さのバランスが取れた最高の時期です！\n\n・30代は専門性と実務経験が蓄積され始め、起業に最適な時期と言われています。\n・若さとスタミナを持ちながらも、業界の知識や人脈が形成されている絶妙なバランスです。\n・家族形成期でもあり、長期的な視点でビジネスを考えられる時期です。\n・失敗からの学びを活かせる柔軟性と、安定を求める責任感のバランスが取れています。\n・あなたの実務経験は、起業における現実的な判断力の基盤になります。\n\nあなたのキャリアで培った専門知識と若さのエネルギーは、成功への強力な推進力になるでしょう！".toList

def ageTitle40 : Str := "40代のあなたへ".toList

def ageBody40 : Str := "40代は経験と人脈が充実した、起業の黄金期です！\n\n・40代はこれまでのキャリアで培った専門知識と人脈が最大限に活きる時期です。\n・業界での信頼関係がすでに構築されており、初期顧客の獲得がスムーズです。\n・マネジメント経験があれば、チームビルディングやリーダーシップのスキルが大きな強みになります。\n・人生経験から来る判断力と冷静さは、ビジネスの安定成長に不可欠な要素です。\n・家族や周囲の理解も得やすく、サポート体制を整えやすい時期です。\n\nあなたの豊富な経験と人脈は、起業成功への最短ルートを切り開くでしょう！".toList

def ageTitle50 : Str := "50代のあなたへ".toList

def ageBody50 : Str := "50代は知恵と経験が満ち溢れた、起業の成熟期です！\n\n・50代は長年のキャリアで培った深い専門知識と広範な人脈が最大の武器になります。\n・業界の課題や顧客ニーズを熟知しており、的確なソリューションを提供できる立場です。\n・財務的にも比較的余裕がある時期で、リスクに対する耐性が高まっています。\n・豊富な人生経験からくる冷静な判断力と問題解決能力は、ビジネスの安定と成長に直結します。\n・若手起業家のメンターとしての役割も果たせる、社会的価値の高い立場です。\n\nあなたの豊かな経験と知恵は、持続可能なビジネスを構築する強固な基盤となるでしょう！".toList

def ageTitle60 : Str := "60代以上のあなたへ".toList

def ageBody60 : Str := "60代以上は知識と知恵の集大成、セカンドライフの新たな挑戦の時です！\n\n・60代以上は長年培った専門知識、人脈、人生経験が結実する素晴らしい時期です。\n・時間的な余裕があり、自分の情熱を注げる事業に取り組める絶好のチャンスです。\n・豊富な人生経験と冷静な判断力は、安定したビジネス運営の鍵となります。\n・若い世代にはない視点や知恵を活かした、ユニークなビジネスモデルを構築できます。\n・社会貢献や価値創造など、経済的成功だけでない多様な目標を設定できる自由があります。\n・デジタル技術と従来の知恵を組み合わせた、世代を超えたイノベーションを起こせる立場です。\n\nあなたの豊かな経験と知恵は、社会に新たな価値をもたらす貴重な資産です！".toList

def goalMet1 : Str := "すでに".toList

def goalMet2 : Str := "円の目標を達成しています。次のステップとして、事業資金の確保を検討しましょう。".toList

def goalGap1 : Str := "あと".toList

def goalGap2 : Str := "円の貯蓄が必要です。月収の20%（".toList

def goalGap3 : Str := "円）を貯蓄に回すと、約".toList

def goalGap4 : Str := "ヶ月で達成できます。".toList

def famTitleChild : Str := "子育て世帯向けアドバイス".toList

def famBodyChild : Str := "・子供がいる家庭では、教育費や将来の進学費用も考慮した資金計画が重要です。\n・起業は子供に「チャレンジする姿」を見せる貴重な機会でもあります。\n・子供の将来のためにも、あなたが情熱を持って取り組める仕事を選ぶことは大切です。\n・起業初期は在宅や時間の融通が利く働き方ができるため、子育てとの両立がしやすくなる場合もあります。\n・家族の理解と協力を得るために、起業計画や将来のビジョンを共有しましょう。\n・子育て世帯向けの公的支援制度（児童手当、医療費助成など）も活用して、固定費を抑える工夫をしましょう。\n・同じく子育て中の起業家とのネットワークを構築し、情報交換や相互支援の関係を作ることも有効です。".toList

def famTitleFamily : Str := "家族構成に応じたアドバイス".toList

def famBodyFamily : Str := "・家族がいる場合は、生命保険や医療保険の見直しを行いましょう。\n・家族と起業についてオープンに話し合い、理解と協力を得ることが重要です。\n・家族の将来のライフプランも考慮した資金計画を立てましょう。\n・配偶者の収入がある場合は、一時的に家計の主な支え手になってもらうことも検討できます。\n・家族の健康保険や社会保険の切り替えについても事前に調査しておきましょう。".toList

def famTitleSingle : Str := "単身者向けアドバイス".toList

def famBodySingle : Str := "・単身の場合は、リスクを取りやすい状況にあります。この機会を最大限に活かしましょう。\n・生活コストを見直し、固定費の削減ポイントを探してみましょう。\n・万が一の事態に備えた医療保険の加入を検討しましょう。\n・単身であることを活かして、起業初期は生活コストを最小限に抑えることも検討できます。\n・将来的なライフプランの変化（結婚、家族形成など）も視野に入れた長期的な事業計画を立てましょう。".toList

def titleIncome : Str := "月収に応じたアドバイス".toList

def incomeBodyLow : Str := "・現在の月収は比較的低めですが、起業によって収入を増やせる可能性があります。\n・まずは副業として小規模に始め、月5万円の副収入から作りましょう。\n・スキルアップに投資し、提供できるサービスの価値を高めることを優先してください。\n・初期投資を最小限に抑えたビジネスモデル（オンラインサービス、コンサルティングなど）から始めましょう。\n・固定費を徹底的に見直し、生活防衛資金を少しずつ増やしていきましょう。".toList

def incomeBodyMedium : Str := "・現在の月収は平均的で、起業の基盤としては良いスタートポイントです。\n・本業を続けながら、週末や平日夜に副業として事業を始め、月10〜15万円の副収入を目指しましょう。\n・副業収入が本業の半分に達したら、独立を検討するタイミングかもしれません。\n・あなたのスキルや経験を活かせる分野で、差別化できるサービスを考えましょう。\n・本業で培った人脈やスキルを最大限に活用し、初期顧客の獲得に繋げましょう。".toList

def incomeBodyHigh : Str := "・現在の月収は高めで、起業のための良い資金基盤があります。\n・高収入を活かして、積極的に事業資金を確保しましょう。\n・あなたの専門性を活かした高単価サービスの提供を検討してください。\n・必要に応じて従業員やフリーランスを雇用し、早期にビジネスを拡大する戦略も有効です。\n・高収入の経験を活かして、ターゲット顧客を明確にし、プレミアムサービスの提供を検討しましょう。\n・投資や資産運用も並行して行い、複数の収入源を確保することをおすすめします。".toList

def titleSteps : Str := "具体的な行動ステップ".toList

def lowSavChildAdd : Str := "・子育て中でも始められる、時間や場所に縛られない副業（ブログ執筆、オンラインコンサルティング、デジタル商品販売など）を検討しましょう。\n・子供の寝ている時間や保育園・学校に行っている時間を活用して、少しずつビジネスを構築していきましょう。\n・配偶者と協力して時間を確保する方法を話し合いましょう。".toList

def titleLowSav : Str := "貯蓄が少なくても大丈夫".toList

def lowSav1 : Str := "・まずは本業を続けながら、週末や平日夜に副業として事業をスタートさせましょう。\n・月に".toList

def lowSav2 : Str := "の副収入を作ることから始め、徐々に拡大していくことで、リスクを抑えられます。\n・副業期間中に顧客基盤やスキルを構築できれば、独立時の不安も軽減できます。\n・最初は投資を抑えたビジネスモデル（".toList

def lowSav3 : Str := "など）から始めるのも一つの方法です。\n".toList

def lowSavV1Low : Str := "5〜10万円".toList

def lowSavV1Medium : Str := "10〜15万円".toList

def lowSavV1High : Str := "15〜20万円".toList

def lowSavV2Low : Str := "個人サービス提供やオンラインコンテンツ販売".toList

def lowSavV2Medium : Str := "コンサルティングやコーチング".toList

def lowSavV2High : Str := "プレミアムコンサルティングや専門サービス".toList

def careerChildAdd : Str := "・子供の将来のためにも、親が自分の夢に挑戦する姿を見せることは、大きな教育的価値があります。\n・起業家として成功すれば、子供の教育資金や将来の選択肢を広げるための経済的基盤を築けます。\n・会社員よりも柔軟な働き方ができるため、子供の行事や緊急時にも対応しやすくなります。".toList

def titleCareer : Str := "サラリーマンも安泰ではない".toList

def careerMain : Str := "・終身雇用の崩壊、AI台頭による仕事の変化など、サラリーマンにも大きなリスクがあります。\n・会社員は「一つの会社」に依存するリスクがありますが、起業家は「複数の顧客」に支えられる強みがあります。\n・起業は自分の力で未来を切り開ける可能性があり、同じリスクを取るなら自分の夢に賭ける方が充実感も大きいでしょう。\n・会社員時代に培ったスキルや人脈は、起業後も大きな資産になります。\n".toList

def titleEnc : Str := "あなたへの特別なメッセージ".toList

def encHighest : Str := "子育てしながらの起業は確かに挑戦ですが、多くの成功例があります。子供の存在がモチベーションとなり、効率的な働き方を模索するきっかけにもなります。まずは副業から始めて、少しずつリスクを減らしながら前進しましょう。子供に「夢を追いかける親」の姿を見せることは、何物にも代えがたい教育です。\n\nあなたの情熱とアイデアは、新しい価値を生み出す原動力です。起業は人生を変える大きなチャンスです。一歩踏み出す勇気を持ちましょう！".toList

def encHigh : Str := "家族がいることで慎重になるのは自然なことですが、それが夢を諦める理由にはなりません。むしろ、家族の存在が長期的な視点と責任感を育み、ビジネスの安定性につながることもあります。計画的に進めれば、家族の理解と協力を得ながら、着実に夢を実現できるでしょう。\n\n今こそ行動するときです。あなたのスキルと経験は、独自のビジネスを成功させる大きな武器になります。自分の可能性を信じて、一歩前に踏み出しましょう！".toList

def encChild : Str := "子育てと起業の両立は、時間管理と優先順位付けの達人になるチャンスです。多くの親起業家が、子供の存在によって効率的な働き方を学び、むしろ成功につなげています。子供に「自分の人生を自分で切り拓く」生き方を見せることは、最高の教育になるでしょう。\n\nあなたの夢を追いかける姿は、子供たちにとって最高のロールモデルになります。今日から小さな一歩を踏み出し、その一歩を積み重ねていきましょう！".toList

def encDefault : Str := "起業は不安もありますが、自分の情熱を仕事にできる素晴らしいチャンスです。あなたのアイデアやスキルは、世界に新しい価値をもたらす可能性を秘めています。\n\n人生は一度きり。「やらなかった後悔」より「やった経験」の方が、あなたを成長させてくれます。今日から小さな一歩を踏み出し、あなたの夢に向かって進んでいきましょう！".toList

def titleFunding : Str := "資金目標".toList

def funding1 : Str := "最低でも".toList

def funding2 : Str := "円（3ヶ月分）の生活費を確保することをおすすめします。\n理想的には".toList

def funding3 : Str := "円（6ヶ月分）あれば、安心して起業に集中できます。\n".toList

def incomeStepsLow : List Str :=
  ["最小限の初期投資で始められるビジネスモデルを選ぶ".toList,
    "スキルアップのためのオンライン学習に投資する".toList,
    "SNSを活用した無料マーケティングから始める".toList]

def incomeStepsMedium : List Str :=
  ["本業と副業のバランスを取りながら、段階的に移行する計画を立てる".toList,
    "初期顧客獲得のために、既存の人脈を活用する".toList,
    "月次で収支を分析し、事業の採算性を確認する".toList]

def incomeStepsHigh : List Str :=
  ["専門性を活かした高単価サービスの開発に注力する".toList,
    "必要に応じて外部人材を活用し、早期にビジネスを拡大する".toList,
    "事業と資産運用の両面から収入源を多様化する".toList]

def childrenStepsList : List Str :=
  ["子育てと両立できる柔軟な働き方を事業計画に組み込む".toList,
    "家族の時間を確保するためのタイムマネジメント戦略を立てる".toList,
    "子育て世帯向けの支援制度や税制優遇を調査し活用する".toList]

def commonStepsList : List Str :=
  ["収支管理アプリで毎月の支出を可視化する".toList,
    "起業後の事業計画書を作成し、必要資金を明確にする".toList,
    "起業仲間やメンターを見つけて定期的に相談する".toList]

def ageSteps20 : List Str :=
  ["若手起業家向けのコミュニティやイベントに積極的に参加する".toList,
    "メンターを見つけて定期的にアドバイスを受ける".toList,
    "デジタルスキルを最大限に活用したビジネスモデルを検討する".toList]

def ageSteps30 : List Str :=
  ["これまでのキャリアで培った専門知識を活かせる分野を選ぶ".toList,
    "仕事と家庭のバランスを考慮した事業計画を立てる".toList,
    "同世代の起業家ネットワークを構築する".toList]

def ageSteps40 : List Str :=
  ["長年の業界経験を活かした差別化戦略を立てる".toList,
    "既存の人脈を活用して初期顧客を獲得する".toList,
    "若手人材の採用・育成計画を検討する".toList]

def ageSteps50 : List Str :=
  ["豊富な経験と知識を活かしたコンサルティングやメンタリングを検討する".toList,
    "ワークライフバランスを重視した事業設計を行う".toList,
    "デジタル技術を活用して効率的なビジネスモデルを構築する".toList]

/-! ## The advice composer (`generateAdvice`, lines 225-585) -/

/-- A titled block as every advice helper emits it:
`"\\n【" ++ title ++ "】\\n" ++ body`. -/
def blockStr (t b : Str) : Str :=
  '\n' :: '【' :: (t ++ '】' :: '\n' :: b)

/-- Age-bracket title by raw age (lines 287-348; only used when `age ≠ 0`). -/
def ageTitleOf (a : Nat) : Str :=
  if a < 30 then ageTitle20
  else if a < 40 then ageTitle30
  else if a < 50 then ageTitle40
  else if a < 60 then ageTitle50
  else ageTitle60

/-- Age-bracket body by raw age (lines 287-348). -/
def ageBodyOf (a : Nat) : Str :=
  if a < 30 then ageBody20
  else if a < 40 then ageBody30
  else if a < 50 then ageBody40
  else if a < 60 then ageBody50
  else ageBody60

/-- Lines 283-349, `getAgeBasedAdvice`: the empty string when `age` is 0
(falsy), otherwise the bracket block. -/
def getAgeBasedAdvice (p : ApplicantProfile) : Str :=
  if p.age = 0 then [] else blockStr (ageTitleOf p.age) (ageBodyOf p.age)

/-- Line 358: `monthsToSave = Math.ceil(difference / (monthlyIncome * 0.2))`,
i.e. the ceiling of `5 * difference / monthlyIncome` (exact rational). -/
def monthsToSave (p : ApplicantProfile) : Nat :=
  (5 * (threeMonthsCost p - p.savings) + p.monthlyIncome - 1) / p.monthlyIncome

/-- Lines 352-361, `getSavingsGoalAdvice(savings, threeMonthsCost)`:
`difference = targetAmount - savings`; goal-met message when
`difference ≤ 0`, else the monthly-savings projection. -/
def savingsGoalAdvice (p : ApplicantProfile) : Str :=
  if threeMonthsCost p ≤ p.savings then
    goalMet1 ++ localeNat (threeMonthsCost p) ++ goalMet2
  else
    goalGap1 ++ localeNat (threeMonthsCost p - p.savings) ++ goalGap2 ++
      localeFifth p.monthlyIncome ++ goalGap3 ++ natDigits (monthsToSave p) ++
      goalGap4

/-- Lines 570-573: the body of the always-present funding-goal block. -/
def fundingBody (p : ApplicantProfile) : Str :=
  funding1 ++ localeNat (threeMonthsCost p) ++ funding2 ++
    localeNat (sixMonthsCost p) ++ funding3 ++ savingsGoalAdvice p

/-- Lines 364-391, `getFamilyAdvice`: title of the selected variant. -/
def famTitle (p : ApplicantProfile) : Str :=
  if hasChildren p then famTitleChild
  else if p.familyCount > 1 then famTitleFamily
  else famTitleSingle

/-- Lines 364-391, `getFamilyAdvice`: body of the selected variant. -/
def famBody (p : ApplicantProfile) : Str :=
  if hasChildren p then famBodyChild
  else if p.familyCount > 1 then famBodyFamily
  else famBodySingle

/-- Lines 394-427, `getIncomeBasedAdvice` body (the `default` branch of
the source switch is unreachable: `incomeLevel` is one of the three
tiers). -/
def incomeBody (p : ApplicantProfile) : Str :=
  match incomeLevel p with
  | .low => incomeBodyLow
  | .medium => incomeBodyMedium
  | .high => incomeBodyHigh

/-- Lines 505-521, `getLowSavingsAdvice` body (only emitted when
`savings < threeMonthsCost`). -/
def lowBody (p : ApplicantProfile) : Str :=
  lowSav1 ++
    (match incomeLevel p with
     | .low => lowSavV1Low
     | .medium => lowSavV1Medium
     | .high => lowSavV1High) ++
    lowSav2 ++
    (match incomeLevel p with
     | .low => lowSavV2Low
     | .medium => lowSavV2Medium
     | .high => lowSavV2High) ++
    lowSav3 ++ (if hasChildren p then lowSavChildAdd else [])

/-- Lines 524-537, `getCareerRiskComparison` body. -/
def careerBody (p : ApplicantProfile) : Str :=
  careerMain ++ (if hasChildren p then careerChildAdd else [])

/-- Lines 540-566, `getEncouragementMessage` body. -/
def encBody (p : ApplicantProfile) : Str :=
  match riskProfile p with
  | .highest => encHighest
  | .high => encHigh
  | _ => if hasChildren p then encChild else encDefault

/-- Lines 458-487, `getAgeSteps` (empty when `age` is 0/falsy; note only
four brackets here, 50 and above share one list). -/
def getAgeSteps (p : ApplicantProfile) : List Str :=
  if p.age = 0 then []
  else if p.age < 30 then ageSteps20
  else if p.age < 40 then ageSteps30
  else if p.age < 50 then ageSteps40
  else ageSteps50

/-- Lines 432-448: the income-tier action steps. -/
def incomeStepsOf (lvl : IncomeLevel) : List Str :=
  match lvl with
  | .low => incomeStepsLow
  | .medium => incomeStepsMedium
  | .high => incomeStepsHigh

/-- Line 497: `allSteps = [...commonSteps, ...specificSteps,
...childrenSteps, ...ageSteps]`. -/
def allSteps (p : ApplicantProfile) : List Str :=
  commonStepsList ++ incomeStepsOf (incomeLevel p) ++
    (if hasChildren p then childrenStepsList else []) ++ getAgeSteps p

/-- `allSteps.map((step, index) => (index+1) ++ ". " ++ step)`, 1-based. -/
def numberSteps (i : Nat) : List Str → List Str
  | [] => []
  | s :: rest => (natDigits i ++ ". ".toList ++ s) :: numberSteps (i + 1) rest

/-- `.join` with a newline separator. -/
def joinNL : List Str → Str
  | [] => []
  | [x] => x
  | x :: y :: rest => x ++ '\n' :: joinNL (y :: rest)

/-- Lines 499-501: the numbered action-step list body. -/
def stepsBody (p : ApplicantProfile) : Str :=
  joinNL (numberSteps 1 (allSteps p))

/-- A single newline, the block separator of the template literal. -/
def nlChar : Str := ['\n']

/-- The whitespace tail of the template literal (newline + the four-space
indentation of the closing backtick, line 584). -/
def tail4 : Str := ['\n', ' ', ' ', ' ', ' ']

/-- The characters removed by `String.prototype.trim()` (ECMAScript
WhiteSpace and LineTerminator code points). -/
def isWSChar (c : Char) : Bool :=
  c.toNat = 9 || c.toNat = 10 || c.toNat = 11 || c.toNat = 12 ||
    c.toNat = 13 || c.toNat = 32 || c.toNat = 160 || c.toNat = 0x1680 ||
    (0x2000 ≤ c.toNat && c.toNat ≤ 0x200a) || c.toNat = 0x2028 ||
    c.toNat = 0x2029 || c.toNat = 0x202f || c.toNat = 0x205f ||
    c.toNat = 0x3000 || c.toNat = 0xfeff

/-- Left trim. -/
def trimL (l : Str) : Str := l.dropWhile isWSChar

/-- Right trim. -/
def trimR (l : Str) : Str := (l.reverse.dropWhile isWSChar).reverse

/-- Model of `s.trim()`. -/
def trimChars (l : Str) : Str := trimL (trimR l)

/-- Lines 569-584: the template literal of `generateAdvice` before
`.trim()` — the funding-goal block inline, then the optional/constant
helper blocks joined exactly as in the source. -/
def generateAdviceRaw (p : ApplicantProfile) : Str :=
  blockStr titleFunding (fundingBody p) ++ nlChar ++ nlChar ++
    getAgeBasedAdvice p ++ nlChar ++ nlChar ++
    blockStr titleIncome (incomeBody p) ++ nlChar ++ nlChar ++
    blockStr (famTitle p) (famBody p) ++ nlChar ++
    (if p.savings < threeMonthsCost p then blockStr titleLowSav (lowBody p) else []) ++
    nlChar ++
    blockStr titleCareer (careerBody p) ++ nlChar ++
    blockStr titleEnc (encBody p) ++ nlChar ++
    blockStr titleSteps (stepsBody p) ++ tail4

/-- Lines 225-585, `generateAdvice`: the composed advice document. -/
def generateAdvice (p : ApplicantProfile) : Str :=
  trimChars (generateAdviceRaw p)

/-! ## The section parser and orderer (`risk-result.tsx`, lines 38-98) -/

/-- Characters a JS `.` (without the `s` flag) does not match:
the LineTerminator code points. -/
def isNLChar (c : Char) : Bool :=
  c.toNat = 10 || c.toNat = 13 || c.toNat = 0x2028 || c.toNat = 0x2029

/-- After the leading `【` and one consumed capture character: find the
first `】`, failing on a line terminator or the end of input.  Helper
for `matchMarker`. -/
def scanTitle : Str → Option (Str × Str)
  | [] => none
  | c :: cs =>
    if c = '】' then some ([], cs)
    else if isNLChar c then none
    else
      match scanTitle cs with
      | some (t, a) => some (c :: t, a)
      | none => none

/-- Attempt to match the lazy `(.+?)】` of `/【(.+?)】/` against the text
following a `【`: the capture is the shortest nonempty run of
non-line-terminator characters followed by `】`.  Returns the capture
and the text after the closing `】`. -/
def matchMarker : Str → Option (Str × Str)
  | [] => none
  | c :: cs =>
    if isNLChar c then none
    else
      match scanTitle cs with
      | some (t, a) => some (c :: t, a)
      | none => none

theorem scanTitle_length :
    ∀ {l t a}, scanTitle l = some (t, a) → a.length < l.length := by
  intro l
  induction l with
  | nil => intro t a h; simp [scanTitle] at h
  | cons c cs ih =>
    intro t a h
    simp only [scanTitle] at h
    split at h
    · cases h; simp
    · split at h
      · cases h
      · rcases hm : scanTitle cs with _ | ⟨t2, a2⟩
        · rw [hm] at h; cases h
        · rw [hm] at h
          cases h
          have := ih hm
          simp only [List.length_cons]
          omega

theorem matchMarker_length :
    ∀ {l t a}, matchMarker l = some (t, a) → a.length < l.length := by
  intro l t a h
  match l with
  | [] => simp [matchMarker] at h
  | c :: cs =>
    simp only [matchMarker] at h
    split at h
    · cases h
    · rcases hm : scanTitle cs with _ | ⟨t2, a2⟩
      · rw [hm] at h; cases h
      · rw [hm] at h
        cases h
        have := scanTitle_length hm
        simp only [List.length_cons]
        omega

/-- Model of `advice.split(/【(.+?)】/)`: JS `split` with a capturing
group splices each capture between the surrounding pieces, so the result
alternates raw text and captured titles, starting and ending with raw
text.  The regex scans left to right; a `【` with no valid marker match
is ordinary text. -/
def splitMarkers (l : Str) : List Str :=
  match l with
  | [] => [[]]
  | c :: rest =>
    if c = '【' then
      match hm : matchMarker rest with
      | some (t, a) => [] :: t :: splitMarkers a
      | none =>
        match splitMarkers rest with
        | [] => [[c]]
        | s :: ss => (c :: s) :: ss
    else
      match splitMarkers rest with
      | [] => [[c]]
      | s :: ss => (c :: s) :: ss
termination_by l.length
decreasing_by
  · have := matchMarker_length hm
    simp only [List.length_cons]
    omega
  · simp
  · simp

/-- Lines 43-50: the pairing loop over the filtered split result
(`title: sections[i]`, `content: sections[i+1].trim()`; a trailing
unpaired piece is dropped by the `i + 1 < sections.length` guard). -/
def pairUp : List Str → List (Str × Str)
  | t :: b :: rest => (t, trimChars b) :: pairUp rest
  | _ => []

/-- Lines 40-50, `renderAdviceSection`: parse the advice document into
titled sections (`advice.split(/【(.+?)】/).filter(Boolean)`, then the
pairing loop; `filter(Boolean)` drops exactly the empty strings). -/
def parseSections (doc : Str) : List (Str × Str) :=
  pairUp ((splitMarkers doc).filter (fun s => !s.isEmpty))

/-- Lines 74-93, `getDisplayOrder`: first matching key of the priority
table in insertion order, 99 when no key matches. -/
def getDisplayOrder (t : Str) : Nat :=
  if containsSub t "あなたへの特別".toList then 1
  else if containsSub t "資金目標".toList then 2
  else if containsSub t "月収に応じた".toList then 3
  else if containsSub t "子育て世帯向け".toList then 4
  else if containsSub t "家族構成".toList then 4
  else if containsSub t "単身者向け".toList then 4
  else if containsSub t "貯蓄が少なくても".toList then 5
  else if containsSub t "サラリーマン".toList then 6
  else if containsSub t "具体的な行動".toList then 7
  else 99

/-- Lines 96-98: `[...formattedSections].sort((a, b) =>
getDisplayOrder(a.title) - getDisplayOrder(b.title))` — a stable
ascending sort by priority (JS `Array.prototype.sort` is stable). -/
def orderSections (l : List (Str × Str)) : List (Str × Str) :=
  l.mergeSort (fun a b => decide (getDisplayOrder a.1 ≤ getDisplayOrder b.1))

/-- The parsed-and-ordered output of the downstream renderer for a
profile: the composed document, parsed and priority-sorted. -/
def orderedSections (p : ApplicantProfile) : List (Str × Str) :=
  orderSections (parseSections (generateAdvice p))

/-- The titled blocks `generateAdvice` emits, in construction order:
pairs of title and raw block body, read off the template structure of
lines 569-584. -/
def blockPairs (p : ApplicantProfile) : List (Str × Str) :=
  [(titleFunding, fundingBody p)] ++
    (if p.age = 0 then [] else [(ageTitleOf p.age, ageBodyOf p.age)]) ++
    [(titleIncome, incomeBody p), (famTitle p, famBody p)] ++
    (if p.savings < threeMonthsCost p then [(titleLowSav, lowBody p)] else []) ++
    [(titleCareer, careerBody p), (titleEnc, encBody p),
      (titleSteps, stepsBody p)]

/-- The blocks the composer emits, each body trimmed of the surrounding
whitespace the serialization format inserts — the block-level reading of
the composed document. -/
def emittedBlocks (p : ApplicantProfile) : List (Str × Str) :=
  (blockPairs p).map (fun tb => (tb.1, trimChars tb.2))

/-! ## Character-level facts about basic-latin lowering -/

theorem isDigit_iff {c : Char} : c.isDigit = true ↔ 48 ≤ c.toNat ∧ c.toNat ≤ 57 := by
  simp [Char.isDigit, UInt32.le_def, BitVec.le_def, Char.toNat, UInt32.toNat, ge_iff_le]

theorem char_eq_iff_toNat {a b : Char} : a = b ↔ a.toNat = b.toNat := by
  constructor
  · intro h; rw [h]
  · intro h
    exact Char.ext (UInt32.toNat.inj h)

theorem toLower_toNat_of_upper {c : Char} (h1 : 65 ≤ c.toNat) (h2 : c.toNat ≤ 90) :
    (Char.toLower c).toNat = c.toNat + 32 := by
  unfold Char.toLower
  rw [if_pos ⟨h1, h2⟩]
  have hv : (c.toNat + 32).isValidChar := by
    unfold Nat.isValidChar
    left
    omega
  rw [Char.ofNat, dif_pos hv]
  simp [Char.ofNatAux, Char.toNat, UInt32.toNat]

theorem toLower_eq_self_of_not_upper {c : Char} (h : c.toNat < 65 ∨ 90 < c.toNat) :
    Char.toLower c = c := by
  unfold Char.toLower
  rw [if_neg]
  omega

/-- `c` lies outside both basic-latin letter ranges (true of every CJK
marker character the normalizer searches for). -/
def nonLatin (c : Char) : Bool :=
  c.toNat < 65 || (90 < c.toNat && c.toNat < 97) || 122 < c.toNat

theorem toLower_eq_iff {a b : Char} (ha : nonLatin a = true) :
    Char.toLower b = a ↔ b = a := by
  simp only [nonLatin, Bool.or_eq_true, Bool.and_eq_true, decide_eq_true_eq] at ha
  by_cases hb : 65 ≤ b.toNat ∧ b.toNat ≤ 90
  · have h32 := toLower_toNat_of_upper hb.1 hb.2
    constructor
    · intro h
      exfalso
      rw [char_eq_iff_toNat] at h
      omega
    · intro h
      exfalso
      rw [char_eq_iff_toNat] at h
      omega
  · rw [toLower_eq_self_of_not_upper (by omega)]

theorem beq_toLower {a : Char} (b : Char) (ha : nonLatin a = true) :
    (a == Char.toLower b) = (a == b) := by
  cases hab : a == b with
  | true =>
    have h : a = b := eq_of_beq hab
    subst h
    have hl : Char.toLower a = a := by
      simp only [nonLatin, Bool.or_eq_true, Bool.and_eq_true,
        decide_eq_true_eq] at ha
      exact toLower_eq_self_of_not_upper (by omega)
    rw [hl]
    exact hab
  | false =>
    have h : a ≠ b := by
      intro hh
      rw [hh] at hab
      simp at hab
    have h3 : (a == Char.toLower b) = false := by
      rw [beq_eq_false_iff_ne]
      intro hh
      exact h ((toLower_eq_iff ha).mp hh.symm).symm
    rw [h3]

theorem isPrefixChars_jsLower {needle : Str} (hay : Str)
    (hn : needle.all nonLatin = true) :
    isPrefixChars needle (jsLower hay) = isPrefixChars needle hay := by
  induction needle generalizing hay with
  | nil => simp [isPrefixChars]
  | cons a as ih =>
    cases hay with
    | nil => simp [jsLower, isPrefixChars]
    | cons b bs =>
      simp only [List.all_cons, Bool.and_eq_true] at hn
      simp only [jsLower, List.map_cons, isPrefixChars]
      rw [beq_toLower b hn.1]
      have ihs := ih bs hn.2
      simp only [jsLower] at ihs
      rw [ihs]

theorem containsSub_jsLower {needle : Str} (hay : Str)
    (hn : needle.all nonLatin = true) :
    containsSub (jsLower hay) needle = containsSub hay needle := by
  induction hay with
  | nil => simp [jsLower, containsSub]
  | cons b bs ih =>
    simp only [jsLower, List.map_cons, containsSub]
    have h1 := isPrefixChars_jsLower (b :: bs) hn
    simp only [jsLower, List.map_cons] at h1
    rw [h1]
    simp only [jsLower] at ih
    rw [ih]

theorem isDigit_toLower (c : Char) : (Char.toLower c).isDigit = c.isDigit := by
  by_cases h : 65 ≤ c.toNat ∧ c.toNat ≤ 90
  · have h32 := toLower_toNat_of_upper h.1 h.2
    apply Bool.eq_iff_iff.mpr
    rw [isDigit_iff, isDigit_iff, h32]
    omega
  · rw [toLower_eq_self_of_not_upper (by omega)]

theorem toLower_of_digit {c : Char} (h : c.isDigit = true) : Char.toLower c = c := by
  have := isDigit_iff.mp h
  exact toLower_eq_self_of_not_upper (by omega)

theorem digitRuns_jsLower (s : Str) : digitRuns (jsLower s) = digitRuns s := by
  induction s using digitRuns.induct with
  | case1 => simp [jsLower, digitRuns]
  | case2 c cs hd ih =>
    simp only [jsLower, List.map_cons]
    rw [digitRuns, digitRuns]
    rw [if_pos (by rw [isDigit_toLower]; exact hd), if_pos hd]
    have htk : (List.map Char.toLower cs).takeWhile Char.isDigit =
        cs.takeWhile Char.isDigit := by
      rw [List.takeWhile_map]
      have : cs.takeWhile (Char.isDigit ∘ Char.toLower) = cs.takeWhile Char.isDigit := by
        congr 1
        funext x
        exact isDigit_toLower x
      rw [this]
      have : List.map Char.toLower (cs.takeWhile Char.isDigit) =
          List.map id (cs.takeWhile Char.isDigit) :=
        List.map_congr_left fun a hmem => toLower_of_digit (List.mem_takeWhile_imp hmem)
      rw [this, List.map_id]
    have hdr : (List.map Char.toLower cs).dropWhile Char.isDigit =
        List.map Char.toLower (cs.dropWhile Char.isDigit) := by
      rw [List.dropWhile_map]
      congr 1
      congr 1
      funext x
      exact isDigit_toLower x
    rw [htk, hdr, toLower_of_digit hd]
    simp only [jsLower] at ih
    rw [ih]
  | case3 c cs hd ih =>
    simp only [jsLower, List.map_cons]
    rw [digitRuns, digitRuns]
    rw [if_neg (by rw [isDigit_toLower]; exact hd), if_neg hd]
    simp only [jsLower] at ih
    exact ih

theorem spouseInText_jsLower (s : Str) :
    spouseInText (jsLower s) = spouseInText s := by
  unfold spouseInText
  rw [containsSub_jsLower s (by decide), containsSub_jsLower s (by decide),
    containsSub_jsLower s (by decide)]

/-! ## `containsSub` is substring containment -/

theorem isPrefixChars_iff {needle hay : Str} :
    isPrefixChars needle hay = true ↔ ∃ y, hay = needle ++ y := by
  induction needle generalizing hay with
  | nil => simp [isPrefixChars]
  | cons a as ih =>
    cases hay with
    | nil => simp [isPrefixChars]
    | cons b bs =>
      simp only [isPrefixChars, Bool.and_eq_true, beq_iff_eq, ih, List.cons_append,
        List.cons.injEq]
      constructor
      · rintro ⟨h1, y, h2⟩
        exact ⟨y, h1.symm, h2⟩
      · rintro ⟨y, h1, h2⟩
        exact ⟨h1.symm, y, h2⟩

theorem containsSub_iff {hay needle : Str} :
    containsSub hay needle = true ↔ ∃ x y, hay = x ++ needle ++ y := by
  induction hay with
  | nil =>
    simp only [containsSub, List.isEmpty_iff]
    constructor
    · intro h; exact ⟨[], [], by simp [h]⟩
    · rintro ⟨x, y, h⟩
      rcases List.append_eq_nil.mp (List.append_eq_nil.mp h.symm).1 with ⟨_, h2⟩
      exact h2
  | cons b bs ih =>
    simp only [containsSub, Bool.or_eq_true, isPrefixChars_iff, ih]
    constructor
    · rintro (⟨y, h⟩ | ⟨x, y, h⟩)
      · exact ⟨[], y, by simp [h]⟩
      · exact ⟨b :: x, y, by simp [h]⟩
    · rintro ⟨x, y, h⟩
      cases x with
      | nil =>
        left
        exact ⟨y, by simpa using h⟩
      | cons x0 xs =>
        right
        simp only [List.cons_append, List.cons.injEq] at h
        exact ⟨xs, y, h.2⟩

/-! ## Bounds of the score components -/

theorem ageBonus_bounds (p : ApplicantProfile) :
    3 ≤ ageBonus p ∧ ageBonus p ≤ 15 := by
  unfold ageBonus
  repeat' split
  all_goals omega

theorem incomeBonus_bounds (p : ApplicantProfile) :
    3 ≤ incomeBonus p ∧ incomeBonus p ≤ 10 := by
  unfold incomeBonus
  repeat' split
  all_goals omega

theorem savingsBonus_bounds (p : ApplicantProfile) :
    2 ≤ savingsBonus p ∧ savingsBonus p ≤ 10 := by
  unfold savingsBonus
  repeat' split
  all_goals omega

theorem scaledScore1_ge (p : ApplicantProfile) : 40 ≤ scaledScore1 p :=
  le_max_left _ _

/-- The intermediate sum of line 202 is at least 43 on every profile. -/
theorem preFloorScore_ge (p : ApplicantProfile) : 43 ≤ preFloorScore p := by
  have ha := ageBonus_bounds p
  have hi := incomeBonus_bounds p
  have hs := savingsBonus_bounds p
  have h1 := scaledScore1_ge p
  unfold preFloorScore scaledScore2 familyAdjustment minScoreWithChildren
  by_cases hc : hasChildren p
  · rw [if_pos hc, if_pos hc]
    omega
  · rw [if_neg hc, if_neg hc]
    split
    · omega
    · omega

/-- The returned score is in [43, 100], and at least 80 without
children. -/
theorem score_bounds (p : ApplicantProfile) :
    43 ≤ calculateRiskScore p ∧ calculateRiskScore p ≤ 100 ∧
      (hasChildren p = false → 80 ≤ calculateRiskScore p) := by
  have hp := preFloorScore_ge p
  unfold calculateRiskScore flooredScore
  by_cases hc : hasChildren p
  · rw [if_pos hc]
    refine ⟨by omega, by omega, ?_⟩
    intro h
    rw [h] at hc
    cases hc
  · rw [if_neg hc]
    exact ⟨by omega, by omega, fun _ => by omega⟩

/-! ## Trim lemmas -/

/-- Every character of `l` is trim whitespace. -/
def allWS (l : Str) : Prop := ∀ c ∈ l, isWSChar c = true

instance (l : Str) : Decidable (allWS l) := by
  unfold allWS; infer_instance

theorem trimL_append_ws {w : Str} (hw : allWS w) (l : Str) :
    trimL (w ++ l) = trimL l := by
  unfold trimL
  exact List.dropWhile_append_of_pos hw

theorem trimL_cons_not_ws {c : Char} (hc : isWSChar c = false) (l : Str) :
    trimL (c :: l) = c :: l := by
  unfold trimL
  rw [List.dropWhile_cons_of_neg (by simp [hc])]

theorem trimR_eq_nil_iff {l : Str} : trimR l = [] ↔ allWS l := by
  unfold trimR allWS
  rw [List.reverse_eq_nil_iff, List.dropWhile_eq_nil_iff]
  constructor
  · intro h c hc
    exact h c (List.mem_reverse.mpr hc)
  · intro h c hc
    exact h c (List.mem_reverse.mp hc)

theorem trimR_append_ws {w : Str} (hw : allWS w) (l : Str) :
    trimR (l ++ w) = trimR l := by
  unfold trimR
  rw [List.reverse_append,
    List.dropWhile_append_of_pos (fun a ha => hw a (List.mem_reverse.mp ha))]

theorem trimR_append_keep {l2 : Str} (h : trimR l2 ≠ []) (l1 : Str) :
    trimR (l1 ++ l2) = l1 ++ trimR l2 := by
  unfold trimR at *
  rw [List.reverse_append, List.dropWhile_append]
  have hne2 : l2.reverse.dropWhile isWSChar ≠ [] := by
    intro hh
    apply h
    rw [hh]
    rfl
  have hne : (l2.reverse.dropWhile isWSChar).isEmpty = false :=
    List.isEmpty_eq_false.mpr hne2
  rw [hne]
  simp only [Bool.false_eq_true, if_false, List.reverse_append,
    List.reverse_reverse]

theorem trimR_ne_nil_of_mem {c : Char} {l : Str} (hc : c ∈ l)
    (h : isWSChar c = false) : trimR l ≠ [] := by
  intro hh
  rw [trimR_eq_nil_iff] at hh
  rw [hh c hc] at h
  cases h

theorem mem_of_mem_trimR {c : Char} {l : Str} (h : c ∈ trimR l) : c ∈ l := by
  unfold trimR at h
  rw [List.mem_reverse] at h
  exact List.mem_reverse.mp ((List.dropWhile_sublist _).subset h)

theorem dropWhile_idem {p : Char → Bool} (l : Str) :
    (l.dropWhile p).dropWhile p = l.dropWhile p := by
  induction l with
  | nil => rfl
  | cons c cs ih =>
    by_cases h : p c = true
    · rw [List.dropWhile_cons_of_pos h]
      exact ih
    · rw [List.dropWhile_cons_of_neg h, List.dropWhile_cons_of_neg h]

theorem trimR_idem (l : Str) : trimR (trimR l) = trimR l := by
  unfold trimR
  rw [List.reverse_reverse]
  rw [dropWhile_idem]

theorem trimChars_trimR (l : Str) : trimChars (trimR l) = trimChars l := by
  unfold trimChars
  rw [trimR_idem]

/-- Trimming ignores a whitespace wrapping. -/
theorem trimChars_sandwich {w1 w2 : Str} (h1 : allWS w1) (h2 : allWS w2)
    (l : Str) : trimChars (w1 ++ l ++ w2) = trimChars l := by
  unfold trimChars
  rw [trimR_append_ws h2]
  by_cases hl : trimR l = []
  · have hws : allWS (w1 ++ l) := by
      intro c hc
      rcases List.mem_append.mp hc with hcw | hcl
      · exact h1 c hcw
      · exact (trimR_eq_nil_iff.mp hl) c hcl
    rw [trimR_eq_nil_iff.mpr hws, hl]
  · rw [trimR_append_keep hl, trimL_append_ws h1]

/-! ## Structure of the split over a well-formed document -/

/-- Title characters legal inside a `【...】` marker: not the closing
bracket and not a line terminator. -/
def goodTitle (t : Str) : Prop := ∀ c ∈ t, c ≠ '】' ∧ isNLChar c = false

instance (t : Str) : Decidable (goodTitle t) := by
  unfold goodTitle; infer_instance

/-- No opening marker bracket occurs in `g`. -/
def noOpen (g : Str) : Prop := ∀ c ∈ g, c ≠ '【'

instance (g : Str) : Decidable (noOpen g) := by
  unfold noOpen; infer_instance

theorem scanTitle_exact {t : Str} (ht : goodTitle t) (d : Str) :
    scanTitle (t ++ '】' :: d) = some (t, d) := by
  induction t with
  | nil => simp [scanTitle]
  | cons c cs ih =>
    have hc := ht c (List.mem_cons_self c cs)
    simp only [List.cons_append, scanTitle, List.append_eq]
    rw [if_neg hc.1, if_neg (by simp [hc.2])]
    rw [ih (fun a ha => ht a (List.mem_cons_of_mem c ha))]

theorem matchMarker_exact {t : Str} (hne : t ≠ []) (ht : goodTitle t)
    (d : Str) : matchMarker (t ++ '】' :: d) = some (t, d) := by
  cases t with
  | nil => cases hne rfl
  | cons c cs =>
    have hc := ht c (List.mem_cons_self c cs)
    simp only [List.cons_append, matchMarker, List.append_eq]
    rw [if_neg (by simp [hc.2])]
    rw [scanTitle_exact (fun a ha => ht a (List.mem_cons_of_mem c ha))]

/-- Splitting at a well-formed marker. -/
theorem splitMarkers_marker {t : Str} (hne : t ≠ []) (ht : goodTitle t)
    (d : Str) :
    splitMarkers ('【' :: (t ++ '】' :: d)) = [] :: t :: splitMarkers d := by
  rw [splitMarkers.eq_def]
  simp only []
  rw [if_pos trivial]
  split
  · rename_i t2 a2 heq
    rw [matchMarker_exact hne ht d] at heq
    cases heq
    rfl
  · rename_i heq
    rw [matchMarker_exact hne ht d] at heq
    cases heq

/-- Marker-free text accumulates onto the first piece of the split. -/
theorem splitMarkers_append {g : Str} (hg : noOpen g) {d s : Str}
    {ss : List Str} (hd : splitMarkers d = s :: ss) :
    splitMarkers (g ++ d) = (g ++ s) :: ss := by
  induction g with
  | nil => simpa using hd
  | cons c cs ih =>
    have hc : c ≠ '【' := hg c (List.mem_cons_self c cs)
    rw [List.cons_append, splitMarkers.eq_def]
    simp only [List.append_eq]
    rw [if_neg hc]
    rw [ih (fun a ha => hg a (List.mem_cons_of_mem c ha))]
    rfl

/-- The serialized form of a block list: `【title】` then the raw gap
text, repeated. -/
def assemble : List (Str × Str) → Str
  | [] => []
  | (t, g) :: bs => '【' :: (t ++ '】' :: (g ++ assemble bs))

/-- The alternating title/gap list the split recovers. -/
def interleaveTB : List (Str × Str) → List Str
  | [] => []
  | (t, g) :: bs => t :: g :: interleaveTB bs

/-- A block list every parser stage handles exactly: nonempty wf titles,
nonempty gaps free of `【`. -/
def wfBlocks (bs : List (Str × Str)) : Prop :=
  ∀ tg ∈ bs, tg.1 ≠ [] ∧ goodTitle tg.1 ∧ noOpen tg.2 ∧ tg.2 ≠ []

theorem splitMarkers_assemble {bs : List (Str × Str)} (h : wfBlocks bs) :
    splitMarkers (assemble bs) = [] :: interleaveTB bs := by
  induction bs with
  | nil =>
    rw [assemble, splitMarkers]
    rfl
  | cons tg bs ih =>
    obtain ⟨t, g⟩ := tg
    obtain ⟨h1, h2, h3, h4⟩ := h (t, g) (List.mem_cons_self _ _)
    dsimp only at h1 h2 h3 h4
    rw [assemble, splitMarkers_marker h1 h2]
    cases bs with
    | nil =>
      rw [assemble,
        splitMarkers_append h3 (show splitMarkers [] = [] :: [] by rw [splitMarkers])]
      simp [interleaveTB]
    | cons tg2 bs2 =>
      have ih2 := ih (fun x hx => h x (List.mem_cons_of_mem _ hx))
      rw [splitMarkers_append h3 ih2]
      obtain ⟨t2, g2⟩ := tg2
      simp [interleaveTB]

theorem mem_interleaveTB {a : Str} {bs : List (Str × Str)}
    (ha : a ∈ interleaveTB bs) : ∃ tg ∈ bs, a = tg.1 ∨ a = tg.2 := by
  induction bs with
  | nil => cases ha
  | cons tg bs ih =>
    obtain ⟨t, g⟩ := tg
    rw [interleaveTB] at ha
    rcases List.mem_cons.mp ha with he | ha2
    · exact ⟨(t, g), List.mem_cons_self _ _, Or.inl he⟩
    · rcases List.mem_cons.mp ha2 with he | ha3
      · exact ⟨(t, g), List.mem_cons_self _ _, Or.inr he⟩
      · rcases ih ha3 with ⟨tg2, htg2, hee⟩
        exact ⟨tg2, List.mem_cons_of_mem _ htg2, hee⟩

theorem filter_interleaveTB {bs : List (Str × Str)} (h : wfBlocks bs) :
    (interleaveTB bs).filter (fun s => !s.isEmpty) = interleaveTB bs := by
  rw [List.filter_eq_self]
  intro a ha
  rcases mem_interleaveTB ha with ⟨tg, htg, he | he⟩
  · obtain ⟨h1, _, _, _⟩ := h tg htg
    subst he
    simp [List.isEmpty_iff, h1]
  · obtain ⟨_, _, _, h4⟩ := h tg htg
    subst he
    simp [List.isEmpty_iff, h4]

theorem pairUp_interleaveTB (bs : List (Str × Str)) :
    pairUp (interleaveTB bs) = bs.map (fun tg => (tg.1, trimChars tg.2)) := by
  induction bs with
  | nil => rfl
  | cons tg bs ih =>
    obtain ⟨t, g⟩ := tg
    rw [interleaveTB, pairUp, ih]
    rfl

/-- The parser recovers exactly the assembled blocks (with trimmed
gaps). -/
theorem parse_assemble {bs : List (Str × Str)} (h : wfBlocks bs) :
    parseSections (assemble bs) = bs.map (fun tg => (tg.1, trimChars tg.2)) := by
  unfold parseSections
  rw [splitMarkers_assemble h, List.filter_cons]
  simp only [List.isEmpty_nil, Bool.not_true, Bool.false_eq_true, if_false]
  rw [filter_interleaveTB h, pairUp_interleaveTB]

/-! ## Character classes of rendered numbers -/

theorem digitChar_isDigit (n : Nat) : (digitChar n).isDigit = true := by
  unfold digitChar
  split <;> decide

theorem natDigits_isDigit {c : Char} (n : Nat) (h : c ∈ natDigits n) :
    c.isDigit = true := by
  induction n using natDigits.induct with
  | case1 n hn =>
    rw [natDigits, dif_pos hn] at h
    rcases List.mem_singleton.mp h with rfl
    exact digitChar_isDigit n
  | case2 n hn ih =>
    rw [natDigits, dif_neg hn] at h
    rcases List.mem_append.mp h with h2 | h2
    · exact ih h2
    · rcases List.mem_singleton.mp h2 with rfl
      exact digitChar_isDigit (n % 10)

theorem mem_chunk3Rev {c : Char} {g l : Str} (hg : g ∈ chunk3Rev l)
    (hc : c ∈ g) : c ∈ l := by
  induction l using chunk3Rev.induct with
  | case1 a b c2 d rest ih =>
    rw [chunk3Rev] at hg
    rcases List.mem_cons.mp hg with rfl | hg2
    · rcases hc with _ | ⟨_, _ | ⟨_, _ | ⟨_, hh⟩⟩⟩ <;> first
        | exact List.mem_cons_self _ _
        | exact List.mem_cons_of_mem _ (List.mem_cons_self _ _)
        | exact List.mem_cons_of_mem _ (List.mem_cons_of_mem _ (List.mem_cons_self _ _))
        | cases hh
    · exact List.mem_cons_of_mem _ (List.mem_cons_of_mem _
        (List.mem_cons_of_mem _ (ih hg2)))
  | case2 l h1 =>
    rw [chunk3Rev] at hg
    · rcases List.mem_singleton.mp hg with rfl
      exact hc
    · exact h1

theorem mem_joinComma {c : Char} {gs : List Str} (h : c ∈ joinComma gs) :
    c = ',' ∨ ∃ g ∈ gs, c ∈ g := by
  induction gs with
  | nil => cases h
  | cons x gs ih =>
    cases gs with
    | nil =>
      rw [joinComma] at h
      exact Or.inr ⟨x, List.mem_cons_self _ _, h⟩
    | cons y rest =>
      rw [joinComma] at h
      rcases List.mem_append.mp h with h2 | h2
      · exact Or.inr ⟨x, List.mem_cons_self _ _, h2⟩
      · rcases List.mem_cons.mp h2 with rfl | h3
        · exact Or.inl rfl
        · rcases ih h3 with h4 | ⟨g, hg, hcg⟩
          · exact Or.inl h4
          · exact Or.inr ⟨g, List.mem_cons_of_mem _ hg, hcg⟩

theorem mem_localeNat {c : Char} {n : Nat} (h : c ∈ localeNat n) :
    c.isDigit = true ∨ c = ',' := by
  unfold localeNat at h
  rcases mem_joinComma h with rfl | ⟨g, hg, hcg⟩
  · exact Or.inr rfl
  · rw [List.mem_reverse] at hg
    rcases List.mem_map.mp hg with ⟨g2, hg2, rfl⟩
    rw [List.mem_reverse] at hcg
    have := mem_chunk3Rev hg2 hcg
    rw [List.mem_reverse] at this
    exact Or.inl (natDigits_isDigit n this)

theorem mem_localeFifth {c : Char} {n : Nat} (h : c ∈ localeFifth n) :
    c.isDigit = true ∨ c = ',' ∨ c = '.' := by
  unfold localeFifth at h
  rcases List.mem_append.mp h with h2 | h2
  · rcases mem_localeNat h2 with hd | rfl
    · exact Or.inl hd
    · exact Or.inr (Or.inl rfl)
  · rcases hfr : n % 5 with _ | _ | _ | _ | k <;> rw [hfr] at h2
    · cases h2
    · rcases List.mem_cons.mp h2 with rfl | h3
      · exact Or.inr (Or.inr rfl)
      · rcases List.mem_singleton.mp h3 with rfl
        exact Or.inl (by decide)
    · rcases List.mem_cons.mp h2 with rfl | h3
      · exact Or.inr (Or.inr rfl)
      · rcases List.mem_singleton.mp h3 with rfl
        exact Or.inl (by decide)
    · rcases List.mem_cons.mp h2 with rfl | h3
      · exact Or.inr (Or.inr rfl)
      · rcases List.mem_singleton.mp h3 with rfl
        exact Or.inl (by decide)
    · rcases List.mem_cons.mp h2 with rfl | h3
      · exact Or.inr (Or.inr rfl)
      · rcases List.mem_singleton.mp h3 with rfl
        exact Or.inl (by decide)

theorem digit_ne_open {c : Char} (h : c.isDigit = true) : c ≠ '【' := by
  intro he
  rw [isDigit_iff] at h
  rw [he] at h
  have hv : ('【').toNat = 12304 := rfl
  omega

theorem noOpen_localeNat (n : Nat) : noOpen (localeNat n) := by
  intro c hc
  rcases mem_localeNat hc with hd | rfl
  · exact digit_ne_open hd
  · decide

theorem noOpen_localeFifth (n : Nat) : noOpen (localeFifth n) := by
  intro c hc
  rcases mem_localeFifth hc with hd | rfl | rfl
  · exact digit_ne_open hd
  · decide
  · decide

theorem noOpen_natDigits (n : Nat) : noOpen (natDigits n) :=
  fun _ hc => digit_ne_open (natDigits_isDigit n hc)

theorem noOpen_append {a b : Str} (ha : noOpen a) (hb : noOpen b) :
    noOpen (a ++ b) := by
  intro c hc
  rcases List.mem_append.mp hc with h | h
  · exact ha c h
  · exact hb c h

/-! ## `noOpen` for every block body -/

theorem noOpen_savingsGoalAdvice (p : ApplicantProfile) :
    noOpen (savingsGoalAdvice p) := by
  unfold savingsGoalAdvice
  split
  · exact noOpen_append (noOpen_append (by decide) (noOpen_localeNat _)) (by decide)
  · exact noOpen_append (noOpen_append (noOpen_append (noOpen_append
      (noOpen_append (noOpen_append (by decide) (noOpen_localeNat _)) (by decide))
        (noOpen_localeFifth _)) (by decide)) (noOpen_natDigits _)) (by decide)

theorem noOpen_fundingBody (p : ApplicantProfile) : noOpen (fundingBody p) := by
  unfold fundingBody
  exact noOpen_append (noOpen_append (noOpen_append (noOpen_append
    (noOpen_append (by decide) (noOpen_localeNat _)) (by decide))
      (noOpen_localeNat _)) (by decide)) (noOpen_savingsGoalAdvice p)

theorem noOpen_ageBodyOf (a : Nat) : noOpen (ageBodyOf a) := by
  unfold ageBodyOf
  repeat' split
  all_goals decide

theorem noOpen_incomeBody (p : ApplicantProfile) : noOpen (incomeBody p) := by
  unfold incomeBody
  split <;> decide

theorem noOpen_famBody (p : ApplicantProfile) : noOpen (famBody p) := by
  unfold famBody
  repeat' split
  all_goals decide

theorem noOpen_lowBody (p : ApplicantProfile) : noOpen (lowBody p) := by
  unfold lowBody
  refine noOpen_append (noOpen_append (noOpen_append (noOpen_append
    (noOpen_append (by decide) ?_) (by decide)) ?_) (by decide)) ?_
  · split <;> decide
  · split <;> decide
  · split <;> decide

theorem noOpen_careerBody (p : ApplicantProfile) : noOpen (careerBody p) := by
  unfold careerBody
  refine noOpen_append (by decide) ?_
  split <;> decide

theorem noOpen_encBody (p : ApplicantProfile) : noOpen (encBody p) := by
  unfold encBody
  repeat' split
  all_goals decide

theorem mem_joinNL {c : Char} {gs : List Str} (h : c ∈ joinNL gs) :
    c = '\n' ∨ ∃ g ∈ gs, c ∈ g := by
  induction gs with
  | nil => cases h
  | cons x gs ih =>
    cases gs with
    | nil =>
      rw [joinNL] at h
      exact Or.inr ⟨x, List.mem_cons_self _ _, h⟩
    | cons y rest =>
      rw [joinNL] at h
      rcases List.mem_append.mp h with h2 | h2
      · exact Or.inr ⟨x, List.mem_cons_self _ _, h2⟩
      · rcases List.mem_cons.mp h2 with rfl | h3
        · exact Or.inl rfl
        · rcases ih h3 with h4 | ⟨g, hg, hcg⟩
          · exact Or.inl h4
          · exact Or.inr ⟨g, List.mem_cons_of_mem _ hg, hcg⟩

theorem mem_numberSteps {s : Str} {i : Nat} {ss : List Str}
    (h : s ∈ numberSteps i ss) :
    ∃ j s0, s0 ∈ ss ∧ s = natDigits j ++ ". ".toList ++ s0 := by
  induction ss generalizing i with
  | nil => cases h
  | cons x ss ih =>
    rw [numberSteps] at h
    rcases List.mem_cons.mp h with rfl | h2
    · exact ⟨i, x, List.mem_cons_self _ _, rfl⟩
    · rcases ih h2 with ⟨j, s0, hs0, rfl⟩
      exact ⟨j, s0, List.mem_cons_of_mem _ hs0, rfl⟩

theorem allSteps_noOpen (p : ApplicantProfile) :
    ∀ s ∈ allSteps p, noOpen s := by
  have h1 : ∀ s ∈ commonStepsList, noOpen s := by decide
  have h2 : ∀ s ∈ incomeStepsOf (incomeLevel p), noOpen s := by
    unfold incomeStepsOf
    split <;> decide
  have h3 : ∀ s ∈ childrenStepsList, noOpen s := by decide
  have h4 : ∀ s ∈ getAgeSteps p, noOpen s := by
    unfold getAgeSteps
    repeat' split
    all_goals first
      | decide
      | (intro s hs; cases hs)
  intro s hs
  unfold allSteps at hs
  rcases List.mem_append.mp hs with hs2 | hs2
  · rcases List.mem_append.mp hs2 with hs3 | hs3
    · rcases List.mem_append.mp hs3 with hs4 | hs4
      · exact h1 s hs4
      · exact h2 s hs4
    · by_cases hch : hasChildren p
      · rw [if_pos hch] at hs3
        exact h3 s hs3
      · rw [if_neg hch] at hs3
        cases hs3
  · exact h4 s hs2

theorem noOpen_stepsBody (p : ApplicantProfile) : noOpen (stepsBody p) := by
  unfold stepsBody
  intro c hc
  rcases mem_joinNL hc with rfl | ⟨g, hg, hcg⟩
  · decide
  · rcases mem_numberSteps hg with ⟨j, s0, hs0, rfl⟩
    rcases List.mem_append.mp hcg with h2 | h2
    · rcases List.mem_append.mp h2 with h3 | h3
      · exact digit_ne_open (natDigits_isDigit j h3)
      · exact (show noOpen (". ".toList) by decide) c h3
    · exact allSteps_noOpen p s0 hs0 c h2

/-! ## The composed document as an assembled block list -/

/-- Two, three, five newlines: the inter-block separator runs of the
template (block separator plus the leading newline of the next block,
plus two more for each omitted optional block). -/
def nl2 : Str := ['\n', '\n']

def nl3 : Str := ['\n', '\n', '\n']

def nl5 : Str := ['\n', '\n', '\n', '\n', '\n']

/-- The blocks of the document with their raw gap text (everything
between a closing `】` and the next `【` or the end), except the final
action-steps block. -/
def headBlocks (p : ApplicantProfile) : List (Str × Str) :=
  [(titleFunding, '\n' :: fundingBody p ++ (if p.age = 0 then nl5 else nl3))] ++
    (if p.age = 0 then [] else
      [(ageTitleOf p.age, '\n' :: ageBodyOf p.age ++ nl3)]) ++
    [(titleIncome, '\n' :: incomeBody p ++ nl3),
     (famTitle p, '\n' :: famBody p ++
       (if p.savings < threeMonthsCost p then nl2 else nl3))] ++
    (if p.savings < threeMonthsCost p then
      [(titleLowSav, '\n' :: lowBody p ++ nl2)] else []) ++
    [(titleCareer, '\n' :: careerBody p ++ nl2),
     (titleEnc, '\n' :: encBody p ++ nl2)]

/-- All blocks with raw gaps; the final gap carries the template's
whitespace tail. -/
def gapBlocks (p : ApplicantProfile) : List (Str × Str) :=
  headBlocks p ++ [(titleSteps, '\n' :: stepsBody p ++ tail4)]

theorem raw_eq_assemble (p : ApplicantProfile) :
    generateAdviceRaw p = '\n' :: assemble (gapBlocks p) := by
  unfold generateAdviceRaw gapBlocks headBlocks getAgeBasedAdvice
  by_cases hA : p.age = 0 <;> by_cases hL : p.savings < threeMonthsCost p <;>
    simp [hA, hL, assemble, blockStr, nlChar, tail4, nl2, nl3, nl5,
      List.append_assoc]

theorem assemble_append (xs ys : List (Str × Str)) :
    assemble (xs ++ ys) = assemble xs ++ assemble ys := by
  induction xs with
  | nil => simp [assemble]
  | cons tg xs ih =>
    obtain ⟨t, g⟩ := tg
    simp [assemble, ih]

theorem assemble_singleton (t x : Str) :
    assemble [(t, x)] = ('【' :: t ++ ['】']) ++ x := by
  simp [assemble]

theorem trimR_assemble_last {t g : Str} (h : trimR g ≠ [])
    (hb : List (Str × Str)) :
    trimR (assemble (hb ++ [(t, g)])) = assemble (hb ++ [(t, trimR g)]) := by
  rw [assemble_append, assemble_append]
  have base : trimR (assemble [(t, g)]) = assemble [(t, trimR g)] := by
    rw [assemble_singleton, assemble_singleton, trimR_append_keep h]
  have bne : assemble [(t, trimR g)] ≠ [] := by
    rw [assemble_singleton]
    simp
  rw [trimR_append_keep (by rw [base]; exact bne), base]

theorem append_singleton_cons {α : Type} (l : List α) (x : α) :
    ∃ y ys, l ++ [x] = y :: ys := by
  cases l with
  | nil => exact ⟨x, [], rfl⟩
  | cons a as => exact ⟨a, as ++ [x], rfl⟩

theorem assemble_cons_ne (tg : Str × Str) (bs : List (Str × Str)) :
    assemble (tg :: bs) ≠ [] := by
  obtain ⟨t, g⟩ := tg
  simp [assemble]

theorem mem_joinNL_head {c : Char} {x : Str} (rest : List Str) (h : c ∈ x) :
    c ∈ joinNL (x :: rest) := by
  cases rest with
  | nil => rw [joinNL]; exact h
  | cons y r =>
    rw [joinNL]
    exact List.mem_append_left _ h

theorem natDigits_one : natDigits 1 = ['1'] := by
  rw [natDigits]
  rfl

theorem one_mem_stepsBody (p : ApplicantProfile) : '1' ∈ stepsBody p := by
  obtain ⟨s, rest, he⟩ : ∃ s rest, numberSteps 1 (allSteps p) =
      (natDigits 1 ++ ". ".toList ++ s) :: rest := ⟨_, _, rfl⟩
  unfold stepsBody
  rw [he]
  refine mem_joinNL_head rest (List.mem_append_left _ (List.mem_append_left _ ?_))
  rw [natDigits_one]
  exact List.mem_singleton.mpr rfl

theorem generateAdvice_eq_assemble (p : ApplicantProfile) :
    generateAdvice p = assemble (headBlocks p ++
      [(titleSteps, trimR ('\n' :: stepsBody p ++ tail4))]) := by
  have hone : ('1' : Char) ∈ '\n' :: stepsBody p ++ tail4 :=
    List.mem_cons_of_mem _ (List.mem_append_left _ (one_mem_stepsBody p))
  have hgne : trimR ('\n' :: stepsBody p ++ tail4) ≠ [] :=
    trimR_ne_nil_of_mem hone (by decide)
  have hfin : trimR (assemble (gapBlocks p)) = assemble (headBlocks p ++
      [(titleSteps, trimR ('\n' :: stepsBody p ++ tail4))]) :=
    trimR_assemble_last hgne _
  have hne2 : assemble (headBlocks p ++
      [(titleSteps, trimR ('\n' :: stepsBody p ++ tail4))]) ≠ [] := by
    obtain ⟨y, ys, he⟩ := append_singleton_cons (headBlocks p)
      (titleSteps, trimR ('\n' :: stepsBody p ++ tail4))
    rw [he]
    exact assemble_cons_ne _ _
  unfold generateAdvice trimChars
  rw [raw_eq_assemble]
  rw [show ('\n' :: assemble (gapBlocks p)) =
    ['\n'] ++ assemble (gapBlocks p) from rfl]
  rw [trimR_append_keep (by rw [hfin]; exact hne2), hfin]
  rw [trimL_append_ws (by decide)]
  obtain ⟨y, ys, he⟩ := append_singleton_cons (headBlocks p)
    (titleSteps, trimR ('\n' :: stepsBody p ++ tail4))
  rw [he]
  obtain ⟨t0, g0⟩ := y
  rw [assemble]
  rw [trimL_cons_not_ws (by decide)]

/-! ## Well-formedness of the blocks -/

theorem noOpen_gap {body sep : Str} (hb : noOpen body) (hs : noOpen sep) :
    noOpen ('\n' :: body ++ sep) := by
  intro c hc
  rcases List.mem_cons.mp hc with rfl | hc2
  · decide
  · rcases List.mem_append.mp hc2 with h | h
    · exact hb c h
    · exact hs c h

theorem ageTitleOf_ne (a : Nat) : ageTitleOf a ≠ [] := by
  unfold ageTitleOf
  repeat' split
  all_goals decide

theorem ageTitleOf_good (a : Nat) : goodTitle (ageTitleOf a) := by
  unfold ageTitleOf
  repeat' split
  all_goals decide

theorem famTitle_ne (p : ApplicantProfile) : famTitle p ≠ [] := by
  unfold famTitle
  repeat' split
  all_goals decide

theorem famTitle_good (p : ApplicantProfile) : goodTitle (famTitle p) := by
  unfold famTitle
  repeat' split
  all_goals decide

theorem wfBlocks_append {xs ys : List (Str × Str)} (hx : wfBlocks xs)
    (hy : wfBlocks ys) : wfBlocks (xs ++ ys) := fun tg htg =>
  (List.mem_append.mp htg).elim (hx tg) (hy tg)

theorem wf_headBlocks (p : ApplicantProfile) : wfBlocks (headBlocks p) := by
  unfold headBlocks
  apply wfBlocks_append
  apply wfBlocks_append
  apply wfBlocks_append
  apply wfBlocks_append
  · intro tg htg
    rcases List.mem_singleton.mp htg with rfl
    exact ⟨(by decide : titleFunding ≠ []), (by decide : goodTitle titleFunding),
      noOpen_gap (noOpen_fundingBody p) (by split <;> decide), by simp⟩
  · by_cases hA : p.age = 0
    · rw [if_pos hA]
      intro tg htg
      cases htg
    · rw [if_neg hA]
      intro tg htg
      rcases List.mem_singleton.mp htg with rfl
      exact ⟨ageTitleOf_ne _, ageTitleOf_good _,
        noOpen_gap (noOpen_ageBodyOf _) (by decide), by simp⟩
  · intro tg htg
    rcases List.mem_cons.mp htg with rfl | htg2
    · exact ⟨(by decide : titleIncome ≠ []), (by decide : goodTitle titleIncome),
        noOpen_gap (noOpen_incomeBody p) (by decide), by simp⟩
    · rcases List.mem_singleton.mp htg2 with rfl
      exact ⟨famTitle_ne p, famTitle_good p,
        noOpen_gap (noOpen_famBody p) (by split <;> decide), by simp⟩
  · by_cases hL : p.savings < threeMonthsCost p
    · rw [if_pos hL]
      intro tg htg
      rcases List.mem_singleton.mp htg with rfl
      exact ⟨(by decide : titleLowSav ≠ []), (by decide : goodTitle titleLowSav),
        noOpen_gap (noOpen_lowBody p) (by decide), by simp⟩
    · rw [if_neg hL]
      intro tg htg
      cases htg
  · intro tg htg
    rcases List.mem_cons.mp htg with rfl | htg2
    · exact ⟨(by decide : titleCareer ≠ []), (by decide : goodTitle titleCareer),
        noOpen_gap (noOpen_careerBody p) (by decide), by simp⟩
    · rcases List.mem_singleton.mp htg2 with rfl
      exact ⟨(by decide : titleEnc ≠ []), (by decide : goodTitle titleEnc),
        noOpen_gap (noOpen_encBody p) (by decide), by simp⟩

theorem wf_finalBlocks (p : ApplicantProfile) :
    wfBlocks (headBlocks p ++
      [(titleSteps, trimR ('\n' :: stepsBody p ++ tail4))]) := by
  apply wfBlocks_append (wf_headBlocks p)
  intro tg htg
  rcases List.mem_singleton.mp htg with rfl
  refine ⟨(by decide : titleSteps ≠ []), (by decide : goodTitle titleSteps), ?_, ?_⟩
  · intro c hc
    exact noOpen_gap (noOpen_stepsBody p) (by decide) c (mem_of_mem_trimR hc)
  · exact trimR_ne_nil_of_mem
      (List.mem_cons_of_mem _ (List.mem_append_left _ (one_mem_stepsBody p)))
      (by decide)

/-! ## Parsing the composed document -/

theorem trimChars_gap (body : Str) {sep : Str} (hs : allWS sep) :
    trimChars ('\n' :: (body ++ sep)) = trimChars body := by
  have he : '\n' :: (body ++ sep) = ['\n'] ++ body ++ sep := by simp
  rw [he, trimChars_sandwich (by decide) hs]

theorem trimChars_gap2 (body : Str) :
    trimChars ('\n' :: (body ++ nl2)) = trimChars body :=
  trimChars_gap body (by decide)

theorem trimChars_gap3 (body : Str) :
    trimChars ('\n' :: (body ++ nl3)) = trimChars body :=
  trimChars_gap body (by decide)

theorem trimChars_gap5 (body : Str) :
    trimChars ('\n' :: (body ++ nl5)) = trimChars body :=
  trimChars_gap body (by decide)

theorem trimChars_gapT (body : Str) :
    trimChars ('\n' :: (body ++ tail4)) = trimChars body :=
  trimChars_gap body (by decide)

/-- The parser applied to the composed document recovers exactly the
composer's blocks, bodies trimmed: the round-trip equality. -/
theorem parse_generateAdvice (p : ApplicantProfile) :
    parseSections (generateAdvice p) = emittedBlocks p := by
  rw [generateAdvice_eq_assemble, parse_assemble (wf_finalBlocks p)]
  unfold emittedBlocks blockPairs headBlocks
  by_cases hA : p.age = 0 <;> by_cases hL : p.savings < threeMonthsCost p <;>
    simp only [hA, hL, if_true, if_false, ite_true, ite_false,
      List.append_nil, List.nil_append, List.cons_append, List.map_append,
      List.map_cons, List.map_nil, trimChars_trimR, trimChars_gap2,
      trimChars_gap3, trimChars_gap5, trimChars_gapT]

/-! ## A structurally recursive evaluator for `digitRuns` -/

/-- Accumulator version of `digitRuns` (current run kept reversed);
structurally recursive, hence kernel-evaluable. -/
def digitRunsGo : Str → Str → List Str
  | run, [] => if run.isEmpty then [] else [run.reverse]
  | run, c :: cs =>
    if c.isDigit then digitRunsGo (c :: run) cs
    else if run.isEmpty then digitRunsGo [] cs
    else run.reverse :: digitRunsGo [] cs

theorem digitRunsGo_run (cs : Str) : ∀ run : Str, run ≠ [] →
    digitRunsGo run cs =
      (run.reverse ++ cs.takeWhile Char.isDigit) ::
        digitRunsGo [] (cs.dropWhile Char.isDigit) := by
  induction cs with
  | nil =>
    intro run hrun
    rw [digitRunsGo, if_neg (by simp [List.isEmpty_iff, hrun])]
    rw [List.takeWhile_nil, List.dropWhile_nil,
      show digitRunsGo [] [] = [] from rfl]
    simp
  | cons d ds ih =>
    intro run hrun
    by_cases hd : d.isDigit
    · rw [digitRunsGo, if_pos hd, ih (d :: run) (by simp),
        List.takeWhile_cons_of_pos hd, List.dropWhile_cons_of_pos hd]
      simp
    · rw [digitRunsGo, if_neg hd, if_neg (by simp [List.isEmpty_iff, hrun]),
        List.takeWhile_cons_of_neg hd, List.dropWhile_cons_of_neg hd]
      rw [digitRunsGo, if_neg hd]
      simp [List.isEmpty_nil]

theorem digitRuns_eq_go (l : Str) : digitRuns l = digitRunsGo [] l := by
  induction l using digitRuns.induct with
  | case1 =>
    rw [digitRuns]
    rfl
  | case2 c cs hd ih =>
    rw [digitRuns, if_pos hd, digitRunsGo, if_pos hd,
      digitRunsGo_run cs [c] (by simp), ih]
    rfl
  | case3 c cs hd ih =>
    rw [digitRuns, if_neg hd, digitRunsGo, if_neg hd,
      if_pos (by rfl), ih]

/-! ## The titles of the emitted blocks and their priorities -/

/-- Every title the composer can emit. -/
def titlePool : List Str :=
  [titleFunding, ageTitle20, ageTitle30, ageTitle40, ageTitle50, ageTitle60,
    titleIncome, famTitleChild, famTitleFamily, famTitleSingle, titleLowSav,
    titleCareer, titleEnc, titleSteps]

/-- The five age-bracket section titles. -/
def ageTitles : List Str :=
  [ageTitle20, ageTitle30, ageTitle40, ageTitle50, ageTitle60]

theorem ageTitleOf_mem (a : Nat) : ageTitleOf a ∈ titlePool := by
  unfold ageTitleOf
  repeat' split
  all_goals decide

theorem ageTitleOf_mem_ageTitles (a : Nat) : ageTitleOf a ∈ ageTitles := by
  unfold ageTitleOf
  repeat' split
  all_goals decide

theorem famTitle_mem (p : ApplicantProfile) : famTitle p ∈ titlePool := by
  unfold famTitle
  repeat' split
  all_goals decide

theorem blockPairs_title_mem (p : ApplicantProfile) :
    ∀ tb ∈ blockPairs p, tb.1 ∈ titlePool := by
  intro tb htb
  unfold blockPairs at htb
  rcases List.mem_append.mp htb with h1 | h1
  · rcases List.mem_append.mp h1 with h2 | h2
    · rcases List.mem_append.mp h2 with h3 | h3
      · rcases List.mem_append.mp h3 with h4 | h4
        · rcases List.mem_singleton.mp h4 with rfl
          exact (by decide : titleFunding ∈ titlePool)
        · by_cases hA : p.age = 0
          · rw [if_pos hA] at h4
            cases h4
          · rw [if_neg hA] at h4
            rcases List.mem_singleton.mp h4 with rfl
            exact ageTitleOf_mem _
      · rcases List.mem_cons.mp h3 with rfl | h4
        · exact (by decide : titleIncome ∈ titlePool)
        · rcases List.mem_singleton.mp h4 with rfl
          exact famTitle_mem p
    · by_cases hL : p.savings < threeMonthsCost p
      · rw [if_pos hL] at h2
        rcases List.mem_singleton.mp h2 with rfl
        exact (by decide : titleLowSav ∈ titlePool)
      · rw [if_neg hL] at h2
        cases h2
  · rcases List.mem_cons.mp h1 with rfl | h2
    · exact (by decide : titleCareer ∈ titlePool)
    · rcases List.mem_cons.mp h2 with rfl | h3
      · exact (by decide : titleEnc ∈ titlePool)
      · rcases List.mem_singleton.mp h3 with rfl
        exact (by decide : titleSteps ∈ titlePool)

theorem emittedBlocks_title_mem (p : ApplicantProfile) :
    ∀ tb ∈ emittedBlocks p, tb.1 ∈ titlePool := by
  intro tb htb
  unfold emittedBlocks at htb
  rcases List.mem_map.mp htb with ⟨tg, htg, rfl⟩
  exact blockPairs_title_mem p tg htg

/-- Priorities of the pool titles under the routing table: the three
uniquely-routed keys. -/
theorem pool_priority : ∀ t ∈ titlePool,
    (containsSub t "あなたへの特別".toList = true → getDisplayOrder t = 1) ∧
    (containsSub t "資金目標".toList = true → getDisplayOrder t = 2) ∧
    (containsSub t "月収に応じた".toList = true → getDisplayOrder t = 3) := by
  decide

/-- Age-bracket titles route to the unmatched priority 99 and do not
contain the special-message key; every other pool title routes at most
to 7. -/
theorem pool_age_priority : ∀ t ∈ titlePool,
    (t ∈ ageTitles → getDisplayOrder t = 99 ∧
      containsSub t "あなたへの特別".toList = false) ∧
    (t ∉ ageTitles → getDisplayOrder t ≤ 7) := by
  decide

/-! ## The ordered output -/

theorem orderSections_perm (l : List (Str × Str)) :
    List.Perm (orderSections l) l :=
  List.mergeSort_perm l _

theorem orderSections_sorted (l : List (Str × Str)) :
    (orderSections l).Pairwise
      (fun a b => getDisplayOrder a.1 ≤ getDisplayOrder b.1) := by
  unfold orderSections
  have h : (List.mergeSort l
      (fun a b => decide (getDisplayOrder a.1 ≤ getDisplayOrder b.1))).Pairwise
      (fun a b =>
        decide (getDisplayOrder a.1 ≤ getDisplayOrder b.1) = true) := by
    apply List.sorted_mergeSort
    · intro a b c h1 h2
      simp only [decide_eq_true_eq] at h1 h2 ⊢
      omega
    · intro a b
      simp only [Bool.or_eq_true, decide_eq_true_eq]
      omega
  exact h.imp (fun hab => by simpa using hab)

theorem orderedSections_eq (p : ApplicantProfile) :
    orderedSections p = orderSections (emittedBlocks p) := by
  unfold orderedSections
  rw [parse_generateAdvice]

theorem orderedSections_title_mem (p : ApplicantProfile) :
    ∀ tb ∈ orderedSections p, tb.1 ∈ titlePool := by
  intro tb htb
  rw [orderedSections_eq] at htb
  exact emittedBlocks_title_mem p tb
    ((orderSections_perm (emittedBlocks p)).mem_iff.mp htb)

/-! ## Concrete example profiles -/

/-- Spec section 8, Example 1: single applicant, unspecified age. -/
def exSingle : ApplicantProfile :=
  ⟨"独身".toList, 1, 0, 0, 300000, false⟩

/-- Spec section 8, Example 2: spouse and one child. -/
def exSpouseChild : ApplicantProfile :=
  ⟨"妻と子1人".toList, 3, 32, 1000000, 300000, false⟩

/-- A valid profile with huge savings and minimal income: the
intermediate sum overshoots 100. -/
def exRich : ApplicantProfile :=
  ⟨"独身".toList, 1, 25, 10000000, 1, false⟩

/-- A children profile attaining the minimal score 43. -/
def exMin : ApplicantProfile :=
  ⟨"子3人".toList, 1, 60, 0, 1, false⟩

theorem exSingle_pre : preFloorScore exSingle = 69 := by
  have h1 : scaledScore1 exSingle = 40 := by
    unfold scaledScore1 scaledScore0
    rw [show jround (exSingle.savings * 100)
        (exSingle.monthlyIncome * exSingle.familyCount * 3) = 0 from by decide]
    omega
  have hch : hasChildren exSingle = false := by decide
  unfold preFloorScore scaledScore2 familyAdjustment
  rw [hch]
  simp only [Bool.false_eq_true, if_false]
  rw [h1, if_neg (by decide : ¬exSingle.familyCount > 1),
    show ageBonus exSingle = 10 from by decide,
    show incomeBonus exSingle = 7 from by decide,
    show savingsBonus exSingle = 2 from by decide]
  omega

theorem exSingle_score : calculateRiskScore exSingle = 80 := by
  have hch : hasChildren exSingle = false := by decide
  unfold calculateRiskScore flooredScore
  rw [hch]
  simp only [Bool.false_eq_true, if_false]
  rw [exSingle_pre]
  omega

theorem exRich_pre : preFloorScore exRich = 138 := by
  have h1 : scaledScore1 exRich = 100 := by
    unfold scaledScore1 scaledScore0
    rw [show jround (exRich.savings * 100)
        (exRich.monthlyIncome * exRich.familyCount * 3) = 333333333 from by decide]
    omega
  have hch : hasChildren exRich = false := by decide
  unfold preFloorScore scaledScore2 familyAdjustment
  rw [hch]
  simp only [Bool.false_eq_true, if_false]
  rw [h1, if_neg (by decide : ¬exRich.familyCount > 1),
    show ageBonus exRich = 15 from by decide,
    show incomeBonus exRich = 3 from by decide,
    show savingsBonus exRich = 10 from by decide]
  omega

theorem exSpouseChild_cc : childrenCount exSpouseChild = 1 := by
  unfold childrenCount
  rw [if_pos (by decide : hasChildren exSpouseChild = true), lowerText,
    digitRuns_eq_go]
  decide

theorem exSpouseChild_eval :
    familyAdjustment exSpouseChild = -5 ∧ scaledScore2 exSpouseChild = 60 ∧
      preFloorScore exSpouseChild = 74 ∧
      calculateRiskScore exSpouseChild = 74 := by
  have hch : hasChildren exSpouseChild = true := by decide
  have hfa : familyAdjustment exSpouseChild = -5 := by
    unfold familyAdjustment
    rw [if_pos hch, exSpouseChild_cc]
    omega
  have h1 : scaledScore1 exSpouseChild = 40 := by
    unfold scaledScore1 scaledScore0
    rw [show jround (exSpouseChild.savings * 100)
        (exSpouseChild.monthlyIncome * exSpouseChild.familyCount * 3) = 37
      from by decide]
    omega
  have hmw : minScoreWithChildren exSpouseChild = 60 := by
    unfold minScoreWithChildren
    rw [exSpouseChild_cc]
    omega
  have h2 : scaledScore2 exSpouseChild = 60 := by
    unfold scaledScore2
    rw [if_pos hch, hmw, h1, hfa]
    omega
  have hpre : preFloorScore exSpouseChild = 74 := by
    unfold preFloorScore
    rw [h2, hfa, show ageBonus exSpouseChild = 10 from by decide,
      show incomeBonus exSpouseChild = 7 from by decide,
      show savingsBonus exSpouseChild = 2 from by decide]
    omega
  refine ⟨hfa, h2, hpre, ?_⟩
  unfold calculateRiskScore flooredScore
  rw [if_pos hch, hpre]
  omega

theorem exMin_score : calculateRiskScore exMin = 43 := by
  have hch : hasChildren exMin = true := by decide
  have hcc : childrenCount exMin = 3 := by
    unfold childrenCount
    rw [if_pos hch, lowerText, digitRuns_eq_go]
    decide
  have hfa : familyAdjustment exMin = -15 := by
    unfold familyAdjustment
    rw [if_pos hch, hcc]
    omega
  have h1 : scaledScore1 exMin = 40 := by
    unfold scaledScore1 scaledScore0
    rw [show jround (exMin.savings * 100)
        (exMin.monthlyIncome * exMin.familyCount * 3) = 0 from by decide]
    omega
  have hmw : minScoreWithChildren exMin = 50 := by
    unfold minScoreWithChildren
    rw [hcc]
    omega
  have h2 : scaledScore2 exMin = 50 := by
    unfold scaledScore2
    rw [if_pos hch, hmw, h1, hfa]
    omega
  have hpre : preFloorScore exMin = 43 := by
    unfold preFloorScore
    rw [h2, hfa, show ageBonus exMin = 3 from by decide,
      show incomeBonus exMin = 3 from by decide,
      show savingsBonus exMin = 2 from by decide]
    omega
  unfold calculateRiskScore flooredScore
  rw [if_pos hch, hpre]
  omega

/-! ## The claims -/

/-- C1: for every input satisfying the input contract, the returned risk
score satisfies `40 ≤ score ≤ 100`, and whenever the derived
`hasChildren` fact is false the score is at least 80. -/
theorem claim_C1 (p : ApplicantProfile) (h : validInput p) :
    40 ≤ calculateRiskScore p ∧ calculateRiskScore p ≤ 100 ∧
      (hasChildren p = false → 80 ≤ calculateRiskScore p) := by
  obtain ⟨h1, h2, h3⟩ := score_bounds p
  exact ⟨by omega, h2, h3⟩

theorem claim_C1_witness :
    validInput exSingle ∧
      (40 ≤ calculateRiskScore exSingle ∧ calculateRiskScore exSingle ≤ 100 ∧
        (hasChildren exSingle = false → 80 ≤ calculateRiskScore exSingle)) :=
  ⟨by decide, claim_C1 exSingle (by decide)⟩

/-- C2: on the profile `familyCount=3, age=32, savings=1000000,
monthlyIncome=300000, familyStructureText="妻と子1人",
hasChildrenFlag=false` the pipeline derives `hasChildren = true` with
`childrenCount = 1`, the calculator returns exactly 74 and the status
label is `絶好のタイミング`; the family adjustment `-5` enters once via
the children re-floor (`scaledScore` becomes 60) and once more in the
final sum (`60 + 10 + (-5) + 7 + 2 = 74`). -/
theorem claim_C2 :
    hasChildren exSpouseChild = true ∧ childrenCount exSpouseChild = 1 ∧
      familyAdjustment exSpouseChild = -5 ∧ scaledScore2 exSpouseChild = 60 ∧
      preFloorScore exSpouseChild =
        scaledScore2 exSpouseChild + 10 + familyAdjustment exSpouseChild + 7 + 2 ∧
      calculateRiskScore exSpouseChild = 74 ∧
      getRiskStatus (calculateRiskScore exSpouseChild) = "絶好のタイミング" := by
  obtain ⟨hfa, h2, hpre, hsc⟩ := exSpouseChild_eval
  refine ⟨by decide, exSpouseChild_cc, hfa, h2, ?_, hsc, ?_⟩
  · rw [hpre, h2, hfa]
    omega
  · rw [hsc]
    decide

/-- C3: round-trip — for every input satisfying the contract, the section
parser applied to the composed advice document recovers exactly the
blocks the composer emitted: same titles, same (trimmed) bodies, none
lost, none added. -/
theorem claim_C3 (p : ApplicantProfile) (h : validInput p) :
    parseSections (generateAdvice p) = emittedBlocks p :=
  parse_generateAdvice p

theorem claim_C3_witness :
    validInput exSingle ∧
      parseSections (generateAdvice exSingle) = emittedBlocks exSingle :=
  ⟨by decide, claim_C3 exSingle (by decide)⟩

/-- C4 as stated is false; this is the corrected form: on every valid
input the intermediate sum before the no-children floor is at least 40
(indeed 43) but not bounded by 100; after the no-children floor the
value is at least 80 whenever `hasChildren` is false; and the final
clamped score lies in [0, 100]. -/
theorem claim_C4 (p : ApplicantProfile) (h : validInput p) :
    40 ≤ preFloorScore p ∧
      (hasChildren p = false → 80 ≤ flooredScore p) ∧
      0 ≤ calculateRiskScore p ∧ calculateRiskScore p ≤ 100 := by
  have hp := preFloorScore_ge p
  obtain ⟨h1, h2, _⟩ := score_bounds p
  refine ⟨by omega, ?_, by omega, h2⟩
  intro hch
  unfold flooredScore
  rw [hch]
  simp only [Bool.false_eq_true, if_false]
  omega

/-- C4, counterexample to the claim as stated: `exRich` is a valid input
whose intermediate sum before the no-children floor is 138, outside
[40,100]; and on spec Example 1 (`exSingle`, `hasChildren` false) the
intermediate sum is 69, outside [80,100]. -/
theorem claim_C4_counterexample :
    validInput exRich ∧ hasChildren exRich = false ∧
      preFloorScore exRich = 138 ∧ ¬(preFloorScore exRich ≤ 100) ∧
      validInput exSingle ∧ hasChildren exSingle = false ∧
      preFloorScore exSingle = 69 ∧ ¬(80 ≤ preFloorScore exSingle) := by
  refine ⟨by decide, by decide, exRich_pre, ?_, by decide, by decide,
    exSingle_pre, ?_⟩
  · rw [exRich_pre]
    omega
  · rw [exSingle_pre]
    omega

theorem claim_C4_witness :
    validInput exSingle ∧
      (40 ≤ preFloorScore exSingle ∧
        (hasChildren exSingle = false → 80 ≤ flooredScore exSingle) ∧
        0 ≤ calculateRiskScore exSingle ∧ calculateRiskScore exSingle ≤ 100) :=
  ⟨by decide, claim_C4 exSingle (by decide)⟩

/-- C5: the derived `hasChildren` fact is exactly the flag OR a
case-insensitive substring match of the family-structure text against
the markers 子, こども, 子供; a false flag never suppresses a textual
match, and a true flag forces `hasChildren` regardless of the text. -/
theorem claim_C5 (p : ApplicantProfile) :
    (hasChildren p = true ↔
      (p.hasChildrenFlag = true ∨
        (∃ x y, jsLower p.familyStructureText = x ++ "子".toList ++ y) ∨
        (∃ x y, jsLower p.familyStructureText = x ++ "こども".toList ++ y) ∨
        (∃ x y, jsLower p.familyStructureText = x ++ "子供".toList ++ y))) ∧
    (p.hasChildrenFlag = true → hasChildren p = true) ∧
    ((containsSub (jsLower p.familyStructureText) "子".toList ||
        containsSub (jsLower p.familyStructureText) "こども".toList ||
        containsSub (jsLower p.familyStructureText) "子供".toList) = true →
      hasChildren p = true) := by
  refine ⟨?_, ?_, ?_⟩
  · unfold hasChildren lowerText
    simp only [Bool.or_eq_true, containsSub_iff]
    rw [or_assoc, or_assoc]
  · intro hf
    unfold hasChildren
    rw [hf]
    rfl
  · intro ht
    unfold hasChildren lowerText
    simp only [Bool.or_eq_true] at ht ⊢
    rcases ht with (h | h) | h
    · exact Or.inl (Or.inl (Or.inr h))
    · exact Or.inl (Or.inr h)
    · exact Or.inr h

theorem claim_C5_witness :
    (hasChildren exSpouseChild = true ↔
      (exSpouseChild.hasChildrenFlag = true ∨
        (∃ x y, jsLower exSpouseChild.familyStructureText =
          x ++ "子".toList ++ y) ∨
        (∃ x y, jsLower exSpouseChild.familyStructureText =
          x ++ "こども".toList ++ y) ∨
        (∃ x y, jsLower exSpouseChild.familyStructureText =
          x ++ "子供".toList ++ y))) ∧
    (exSpouseChild.hasChildrenFlag = true →
      hasChildren exSpouseChild = true) ∧
    ((containsSub (jsLower exSpouseChild.familyStructureText) "子".toList ||
        containsSub (jsLower exSpouseChild.familyStructureText) "こども".toList ||
        containsSub (jsLower exSpouseChild.familyStructureText) "子供".toList) = true →
      hasChildren exSpouseChild = true) :=
  claim_C5 exSpouseChild

/-- C6: for a profile whose derived `hasChildren` is true, if the raw
family-structure text contains a maximal ASCII-digit run then
`childrenCount` is the first such run parsed as a nonnegative decimal
integer; otherwise it is `max 1 (familyCount - K)` with `K = 2` when the
text contains a spouse marker (妻, 夫 or 配偶者) and `K = 1`
otherwise. -/
theorem claim_C6 (p : ApplicantProfile) (h : hasChildren p = true) :
    (∀ r rs, digitRuns p.familyStructureText = r :: rs →
      childrenCount p = parseDecDigits r) ∧
    (digitRuns p.familyStructureText = [] →
      childrenCount p = max 1 (p.familyCount -
        (if spouseInText p.familyStructureText = true then 2 else 1))) := by
  constructor
  · intro r rs hr
    unfold childrenCount lowerText
    rw [if_pos h, digitRuns_jsLower, hr]
  · intro hr
    unfold childrenCount lowerText
    rw [if_pos h, digitRuns_jsLower, hr, spouseInText_jsLower]

theorem claim_C6_witness :
    hasChildren exSpouseChild = true ∧
      childrenCount exSpouseChild = parseDecDigits ['1'] :=
  ⟨by decide, (claim_C6 exSpouseChild (by decide)).1 ['1'] []
    (by rw [digitRuns_eq_go]; decide)⟩

/-! ## Helpers for the ordering and age-section claims -/

/-- Priorities are monotone along the ordered output. -/
theorem sections_prio_mono (p : ApplicantProfile) (i j : Nat)
    (hi : i < (orderedSections p).length)
    (hj : j < (orderedSections p).length) (hij : i < j) :
    getDisplayOrder ((orderedSections p).get ⟨i, hi⟩).1 ≤
      getDisplayOrder ((orderedSections p).get ⟨j, hj⟩).1 := by
  have hs : (orderedSections p).Pairwise
      (fun a b => getDisplayOrder a.1 ≤ getDisplayOrder b.1) := by
    unfold orderedSections
    exact orderSections_sorted _
  have h := List.pairwise_iff_getElem.mp hs i j hi hj hij
  simpa using h

/-- On Example 1 the renderer displays seven sections. -/
theorem exSingle_sections_len : (orderedSections exSingle).length = 7 := by
  rw [orderedSections_eq]
  rw [(orderSections_perm (emittedBlocks exSingle)).length_eq]
  unfold emittedBlocks
  rw [List.length_map]
  unfold blockPairs
  rw [if_pos (show exSingle.age = 0 from rfl),
    if_pos (by decide : exSingle.savings < threeMonthsCost exSingle)]
  rfl

/-- The family-advice title is never an age-bracket title. -/
theorem famTitle_not_age (p : ApplicantProfile) : famTitle p ∉ ageTitles := by
  unfold famTitle
  repeat' split
  all_goals decide

/-- The composer emits a block with an age-bracket title iff the raw age
is non-zero. -/
theorem blockPairs_age_iff (p : ApplicantProfile) :
    (∃ tb ∈ blockPairs p, tb.1 ∈ ageTitles) ↔ p.age ≠ 0 := by
  constructor
  · rintro ⟨tb, htb, hage⟩
    intro hA
    unfold blockPairs at htb
    rw [if_pos hA] at htb
    rcases List.mem_append.mp htb with h1 | h1
    · rcases List.mem_append.mp h1 with h2 | h2
      · rcases List.mem_append.mp h2 with h3 | h3
        · rcases List.mem_append.mp h3 with h4 | h4
          · rcases List.mem_singleton.mp h4 with rfl
            exact absurd (show titleFunding ∈ ageTitles from hage) (by decide)
          · cases h4
        · rcases List.mem_cons.mp h3 with rfl | h4
          · exact absurd (show titleIncome ∈ ageTitles from hage) (by decide)
          · rcases List.mem_singleton.mp h4 with rfl
            exact famTitle_not_age p hage
      · by_cases hL : p.savings < threeMonthsCost p
        · rw [if_pos hL] at h2
          rcases List.mem_singleton.mp h2 with rfl
          exact absurd (show titleLowSav ∈ ageTitles from hage) (by decide)
        · rw [if_neg hL] at h2
          cases h2
    · rcases List.mem_cons.mp h1 with rfl | h2
      · exact absurd (show titleCareer ∈ ageTitles from hage) (by decide)
      · rcases List.mem_cons.mp h2 with rfl | h3
        · exact absurd (show titleEnc ∈ ageTitles from hage) (by decide)
        · rcases List.mem_singleton.mp h3 with rfl
          exact absurd (show titleSteps ∈ ageTitles from hage) (by decide)
  · intro hA
    refine ⟨(ageTitleOf p.age, ageBodyOf p.age), ?_, ageTitleOf_mem_ageTitles _⟩
    unfold blockPairs
    rw [if_neg hA]
    simp

/-- The score depends on the age field only through `effectiveAge`. -/
theorem score_age_irrel (p q : ApplicantProfile)
    (h1 : q.familyStructureText = p.familyStructureText)
    (h2 : q.familyCount = p.familyCount) (h3 : q.savings = p.savings)
    (h4 : q.monthlyIncome = p.monthlyIncome)
    (h5 : q.hasChildrenFlag = p.hasChildrenFlag)
    (h6 : effectiveAge q = effectiveAge p) :
    calculateRiskScore q = calculateRiskScore p := by
  unfold calculateRiskScore flooredScore preFloorScore scaledScore2
    scaledScore1 scaledScore0 familyAdjustment minScoreWithChildren
    incomeBonus savingsBonus ageBonus sixMonthsCost childrenCount
    hasChildren lowerText
  rw [h1, h2, h3, h4, h5, h6]

/-- C7: ordering law — in the parsed-and-ordered output of any valid
input, every section whose title contains あなたへの特別 precedes every
section whose title contains 資金目標, which in turn precedes every
section whose title contains 月収に応じた. -/
theorem claim_C7 (p : ApplicantProfile) (h : validInput p)
    (i j : Nat) (hi : i < (orderedSections p).length)
    (hj : j < (orderedSections p).length) :
    (containsSub ((orderedSections p).get ⟨i, hi⟩).1
        "あなたへの特別".toList = true →
      containsSub ((orderedSections p).get ⟨j, hj⟩).1
        "資金目標".toList = true → i < j) ∧
    (containsSub ((orderedSections p).get ⟨i, hi⟩).1
        "資金目標".toList = true →
      containsSub ((orderedSections p).get ⟨j, hj⟩).1
        "月収に応じた".toList = true → i < j) := by
  have hmi := orderedSections_title_mem p _
    (List.get_mem (orderedSections p) i hi)
  have hmj := orderedSections_title_mem p _
    (List.get_mem (orderedSections p) j hj)
  constructor
  · intro h1 h2
    have q1 := (pool_priority _ hmi).1 h1
    have q2 := (pool_priority _ hmj).2.1 h2
    rcases Nat.lt_trichotomy i j with hlt | heq | hgt
    · exact hlt
    · exfalso
      subst heq
      have q2b : getDisplayOrder ((orderedSections p).get ⟨i, hi⟩).1 = 2 := q2
      omega
    · exfalso
      have hle := sections_prio_mono p j i hj hi hgt
      rw [q1, q2] at hle
      omega
  · intro h1 h2
    have q1 := (pool_priority _ hmi).2.1 h1
    have q2 := (pool_priority _ hmj).2.2 h2
    rcases Nat.lt_trichotomy i j with hlt | heq | hgt
    · exact hlt
    · exfalso
      subst heq
      have q2b : getDisplayOrder ((orderedSections p).get ⟨i, hi⟩).1 = 3 := q2
      omega
    · exfalso
      have hle := sections_prio_mono p j i hj hi hgt
      rw [q1, q2] at hle
      omega

theorem claim_C7_witness :
    validInput exSingle ∧
      ∃ (hi : 0 < (orderedSections exSingle).length)
        (hj : 1 < (orderedSections exSingle).length),
        ((containsSub ((orderedSections exSingle).get ⟨0, hi⟩).1
            "あなたへの特別".toList = true →
          containsSub ((orderedSections exSingle).get ⟨1, hj⟩).1
            "資金目標".toList = true → 0 < 1) ∧
        (containsSub ((orderedSections exSingle).get ⟨0, hi⟩).1
            "資金目標".toList = true →
          containsSub ((orderedSections exSingle).get ⟨1, hj⟩).1
            "月収に応じた".toList = true → 0 < 1)) := by
  have hl := exSingle_sections_len
  have hi : 0 < (orderedSections exSingle).length := by omega
  have hj : 1 < (orderedSections exSingle).length := by omega
  exact ⟨by decide, hi, hj, claim_C7 exSingle (by decide) 0 1 hi hj⟩

/-- C8: the age-bracket advice section is present in the composed
document iff the raw age is non-zero; the age-specific action steps are
empty iff the raw age is zero; and the 35-for-0 default substitution
affects only the score, which equals the score of the same profile with
age 35. -/
theorem claim_C8 (p : ApplicantProfile) (h : validInput p) :
    ((∃ tb ∈ parseSections (generateAdvice p), tb.1 ∈ ageTitles) ↔
      p.age ≠ 0) ∧
    (getAgeSteps p = [] ↔ p.age = 0) ∧
    (p.age = 0 → calculateRiskScore p = calculateRiskScore
      ⟨p.familyStructureText, p.familyCount, 35, p.savings,
        p.monthlyIncome, p.hasChildrenFlag⟩) := by
  refine ⟨?_, ?_, ?_⟩
  · rw [parse_generateAdvice p]
    unfold emittedBlocks
    constructor
    · rintro ⟨tb, htb, hage⟩
      rcases List.mem_map.mp htb with ⟨tg, htg, rfl⟩
      exact (blockPairs_age_iff p).mp ⟨tg, htg, hage⟩
    · intro hA
      rcases (blockPairs_age_iff p).mpr hA with ⟨tg, htg, hage⟩
      exact ⟨(tg.1, trimChars tg.2), List.mem_map_of_mem _ htg, hage⟩
  · by_cases hA : p.age = 0
    · unfold getAgeSteps
      rw [if_pos hA]
      exact ⟨fun _ => hA, fun _ => rfl⟩
    · unfold getAgeSteps
      rw [if_neg hA]
      constructor
      · intro hc
        exfalso
        revert hc
        repeat' split
        all_goals decide
      · intro h0
        exact absurd h0 hA
  · intro h0
    refine (score_age_irrel p
      ⟨p.familyStructureText, p.familyCount, 35, p.savings,
        p.monthlyIncome, p.hasChildrenFlag⟩
      rfl rfl rfl rfl rfl ?_).symm
    unfold effectiveAge
    rw [h0]
    rfl

theorem claim_C8_witness :
    validInput exSingle ∧
      (((∃ tb ∈ parseSections (generateAdvice exSingle), tb.1 ∈ ageTitles) ↔
          exSingle.age ≠ 0) ∧
        (getAgeSteps exSingle = [] ↔ exSingle.age = 0) ∧
        (exSingle.age = 0 → calculateRiskScore exSingle = calculateRiskScore
          ⟨exSingle.familyStructureText, exSingle.familyCount, 35,
            exSingle.savings, exSingle.monthlyIncome,
            exSingle.hasChildrenFlag⟩)) :=
  ⟨by decide, claim_C8 exSingle (by decide)⟩

/-- C9: on every valid input the returned score is strictly above 40
(indeed at least 43, and 43 is attained by the children profile
`exMin`), so the status is never 検討段階 and is always 準備OK or
絶好のタイミング. -/
theorem claim_C9 :
    (∀ p : ApplicantProfile, validInput p →
      40 < calculateRiskScore p ∧ 43 ≤ calculateRiskScore p ∧
      getRiskStatus (calculateRiskScore p) ≠ "検討段階" ∧
      (getRiskStatus (calculateRiskScore p) = "準備OK" ∨
        getRiskStatus (calculateRiskScore p) = "絶好のタイミング")) ∧
    validInput exMin ∧ hasChildren exMin = true ∧
      calculateRiskScore exMin = 43 := by
  refine ⟨?_, by decide, by decide, exMin_score⟩
  intro p hp
  obtain ⟨h1, h2, h3⟩ := score_bounds p
  refine ⟨by omega, by omega, ?_, ?_⟩
  · unfold getRiskStatus
    rw [if_neg (by omega : ¬ calculateRiskScore p ≤ 40)]
    split
    · decide
    · decide
  · unfold getRiskStatus
    rw [if_neg (by omega : ¬ calculateRiskScore p ≤ 40)]
    split
    · exact Or.inl rfl
    · exact Or.inr rfl

theorem claim_C9_witness :
    validInput exSingle ∧
      (40 < calculateRiskScore exSingle ∧ 43 ≤ calculateRiskScore exSingle ∧
        getRiskStatus (calculateRiskScore exSingle) ≠ "検討段階" ∧
        (getRiskStatus (calculateRiskScore exSingle) = "準備OK" ∨
          getRiskStatus (calculateRiskScore exSingle) =
            "絶好のタイミング")) :=
  ⟨by decide, claim_C9.1 exSingle (by decide)⟩

/-- C10: the five age-bracket titles match no key of the priority table
(in particular none contains あなたへの特別) and so route to the
unmatched priority 99; the composer emits the age block second in
construction order whenever the age is non-zero, yet in the ordered
output the age section comes after every section whose title is not an
age-bracket title. -/
theorem claim_C10 (p : ApplicantProfile) (h : validInput p)
    (hA : p.age ≠ 0) :
    (∀ t ∈ ageTitles, getDisplayOrder t = 99 ∧
      containsSub t "あなたへの特別".toList = false) ∧
    (blockPairs p)[1]? = some (ageTitleOf p.age, ageBodyOf p.age) ∧
    (∃ i, ∃ hi : i < (orderedSections p).length,
      ((orderedSections p).get ⟨i, hi⟩).1 ∈ ageTitles) ∧
    (∀ (i j : Nat) (hi : i < (orderedSections p).length)
      (hj : j < (orderedSections p).length),
      ((orderedSections p).get ⟨i, hi⟩).1 ∈ ageTitles →
      ((orderedSections p).get ⟨j, hj⟩).1 ∉ ageTitles → j < i) := by
  refine ⟨by decide, ?_, ?_, ?_⟩
  · unfold blockPairs
    rw [if_neg hA]
    rfl
  · have hmem1 : (ageTitleOf p.age, ageBodyOf p.age) ∈ blockPairs p := by
      unfold blockPairs
      rw [if_neg hA]
      simp
    have hmem2 : (ageTitleOf p.age, trimChars (ageBodyOf p.age)) ∈
        emittedBlocks p := by
      unfold emittedBlocks
      exact List.mem_map_of_mem _ hmem1
    have hmem3 : (ageTitleOf p.age, trimChars (ageBodyOf p.age)) ∈
        orderedSections p := by
      rw [orderedSections_eq]
      exact (orderSections_perm (emittedBlocks p)).mem_iff.mpr hmem2
    rcases List.mem_iff_get.mp hmem3 with ⟨n, hn⟩
    refine ⟨n.1, n.2, ?_⟩
    have hg : (orderedSections p).get ⟨n.1, n.2⟩ =
      (ageTitleOf p.age, trimChars (ageBodyOf p.age)) := hn
    rw [hg]
    exact ageTitleOf_mem_ageTitles _
  · intro i j hi hj hiA hjA
    have hmi := orderedSections_title_mem p _
      (List.get_mem (orderedSections p) i hi)
    have hmj := orderedSections_title_mem p _
      (List.get_mem (orderedSections p) j hj)
    have q1 := ((pool_age_priority _ hmi).1 hiA).1
    have q2 := (pool_age_priority _ hmj).2 hjA
    rcases Nat.lt_trichotomy j i with hlt | heq | hgt
    · exact hlt
    · exfalso
      subst heq
      exact hjA hiA
    · exfalso
      have hle := sections_prio_mono p i j hi hj hgt
      rw [q1] at hle
      omega

theorem claim_C10_witness :
    validInput exSpouseChild ∧ exSpouseChild.age ≠ 0 ∧
      ((∀ t ∈ ageTitles, getDisplayOrder t = 99 ∧
          containsSub t "あなたへの特別".toList = false) ∧
        (blockPairs exSpouseChild)[1]? =
          some (ageTitleOf exSpouseChild.age, ageBodyOf exSpouseChild.age) ∧
        (∃ i, ∃ hi : i < (orderedSections exSpouseChild).length,
          ((orderedSections exSpouseChild).get ⟨i, hi⟩).1 ∈ ageTitles) ∧
        (∀ (i j : Nat) (hi : i < (orderedSections exSpouseChild).length)
          (hj : j < (orderedSections exSpouseChild).length),
          ((orderedSections exSpouseChild).get ⟨i, hi⟩).1 ∈ ageTitles →
          ((orderedSections exSpouseChild).get ⟨j, hj⟩).1 ∉ ageTitles →
          j < i)) :=
  ⟨by decide, by decide, claim_C10 exSpouseChild (by decide) (by decide)⟩

end RiskAssessment
